import Mathlib

/-!
A shallow embedding of gVisor's NIC core (`pkg/tcpip/stack/nic.go`) and proofs
about its address table, primary-endpoint ordering, multicast refcounting,
enable transition and receive dispatch.

Modelling conventions:
* Go pointers to `referencedNetworkEndpoint` cells are modelled as numeric cell
  ids into a heap (`NICState.cells`); pointer equality is id equality.
* Go maps are modelled as association lists; `assocSet` models map assignment
  (replace the binding if present, else append) and `List.lookup` models probing.
* Machine integers (`int32` refcounts, join counts) are modelled as `Int`/`Nat`;
  no overflow is relevant at the counts the code manipulates.
* A Go `panic` (and `log.Fatalf`) is modelled as the `none` result of an
  `Option`-valued operation.
* External collaborators (NDP machinery, link endpoint, endpoint factories) are
  modelled as recorded events / always-succeeding constructions, per the
  contracts in the specification; each such definition carries a comment.
-/

namespace NicModel

/-- Addresses (`tcpip.Address`) are byte strings, modelled as lists of byte
values. -/
abbrev Address := List Nat

/-- `stack.PrimaryEndpointBehavior` from nic.go. -/
inductive PrimaryEndpointBehavior where
  | CanBePrimaryEndpoint
  | FirstPrimaryEndpoint
  | NeverPrimaryEndpoint
deriving DecidableEq, Repr

/-- `stack.networkEndpointKind` from nic.go. -/
inductive networkEndpointKind where
  | permanentTentative
  | permanent
  | permanentExpired
  | temporary
deriving DecidableEq, Repr

/-- `stack.networkEndpointConfigType` from nic.go. -/
inductive networkEndpointConfigType where
  | static
  | slaac
deriving DecidableEq, Repr

/-- The `*tcpip.Error` values nic.go can surface. -/
inductive TcpipError where
  | duplicateAddress
  | unknownProtocol
  | badLocalAddress
  | badAddress
  | invalidEndpointState
deriving DecidableEq, Repr

/-- Calls into external collaborators (NDP substate, link endpoint, endpoint
close) are recorded as events rather than modelled in depth. -/
inductive NICEvent where
  | attachLink
  | startDAD (addr : Address)
  | stopDAD (addr : Address)
  | doSLAAC
  | startSolicitingRouters
  | cleanupAutoGenAddr (addr : Address)
  | closeEndpoint (rid : Nat)
deriving DecidableEq, Repr

/-- One `referencedNetworkEndpoint` cell. `addr` and `prefixLen` stand for the
owned network endpoint's `ID().LocalAddress` and `PrefixLen()` (the endpoint
factory `NewEndpoint` is modelled, per the spec's NetworkProtocol contract, as
always succeeding and echoing the requested address and prefix length). The
link-address cache pointer is omitted: no claim observes it. -/
structure referencedNetworkEndpoint where
  addr : Address
  prefixLen : Nat
  protocol : Nat
  refs : Int
  kind : networkEndpointKind
  configType : networkEndpointConfigType
  deprecated : Bool
deriving DecidableEq, Repr

/-- Modelled from the spec: `tcpip.Subnet` (the tcpip package is not under
src/). A subnet is an address/mask pair; `ID` is the network address,
`Broadcast` sets the host bits, `Contains` masks and compares. -/
structure Subnet where
  address : Address
  mask : Address
deriving DecidableEq, Repr

def Subnet.ID (s : Subnet) : Address := s.address

def Subnet.Broadcast (s : Subnet) : Address :=
  (s.address.zip s.mask).map fun p => p.1 ||| (255 ^^^ p.2)

def Subnet.Contains (s : Subnet) (a : Address) : Bool :=
  a.length == s.address.length &&
    ((a.zip s.mask).zip s.address).all fun p => p.1.1 &&& p.1.2 == p.2

/-- The mutable state a NIC protects with its mutex, plus the cell heap and the
event log. `linkAddress` and `loopback` stand for the link endpoint's
`LinkAddress()` and `Capabilities()&CapabilityLoopback`. -/
structure NICState where
  enabled : Bool
  promiscuous : Bool
  spoofing : Bool
  loopback : Bool
  linkAddress : Address
  cells : List (Nat × referencedNetworkEndpoint)
  endpoints : List (Address × Nat)
  primary : List (Nat × List Nat)
  addressRanges : List Subnet
  mcastJoins : List (Address × Nat)
  packetEPs : List (Nat × List Nat)
  events : List NICEvent
  nextCell : Nat
deriving DecidableEq, Repr

/-- Per-NIC statistics (`NICStats`): three directional packet/byte counters. -/
structure NICStatsM where
  rxPackets : Nat
  rxBytes : Nat
  txPackets : Nat
  txBytes : Nat
  disabledRxPackets : Nat
  disabledRxBytes : Nat
deriving DecidableEq, Repr

/-- The stack-level counters nic.go increments. -/
structure StackStatsM where
  unknownProtocolRcvdPackets : Nat
  malformedRcvdPackets : Nat
  ipPacketsReceived : Nat
  invalidSourceAddressesReceived : Nat
  invalidDestinationAddressesReceived : Nat
deriving DecidableEq, Repr

/-- Modelled from the spec: the `NetworkProtocol` contract (`Number`,
`MinimumPacketSize`, `DefaultPrefixLen`, `ParseAddresses`); the concrete
protocol implementations are not under src/. -/
structure NetProtoInfo where
  number : Nat
  minimumPacketSize : Nat
  defaultPrefixLen : Nat
  parseAddresses : List Nat → Address × Address

/-- The slice of `stack.Stack` state nic.go reads. -/
structure StackState where
  networkProtocols : List (Nat × NetProtoInfo)
  handleLocal : Bool
  forwarding : Bool
  autoGenIPv6LinkLocal : Bool

/-- A `tcpip.PacketBuffer`: its total data size and the contiguous first
region (`Data.First()`). -/
structure Packet where
  dataSize : Nat
  first : List Nat
deriving DecidableEq, Repr

/-- `tcpip.ProtocolAddress` flattened (protocol, address, prefix length). -/
structure ProtocolAddress where
  protocol : Nat
  address : Address
  prefixLen : Nat
deriving DecidableEq, Repr

/-- header.IPv4ProtocolNumber. -/
def IPv4ProtocolNumber : Nat := 0x0800

/-- header.IPv6ProtocolNumber. -/
def IPv6ProtocolNumber : Nat := 0x86dd

/-- header.EthernetProtocolAll. -/
def EthernetProtocolAll : Nat := 0x0003

/-- header.IPv4Broadcast (255.255.255.255). -/
def IPv4Broadcast : Address := [255, 255, 255, 255]

/-- header.IPv4AddressSize. -/
def IPv4AddressSize : Nat := 4

/-- header.IPv6AllNodesMulticastAddress (ff02::1). -/
def IPv6AllNodesMulticastAddress : Address :=
  [0xff, 0x02, 0, 0, 0, 0, 0, 0, 0, 0, 0, 0, 0, 0, 0, 1]

/-- The IPv6 unspecified address. -/
def IPv6Any : Address := List.replicate 16 0

/-- Modelled from the spec: `header.IsV6UnicastAddress` (the header package is
not under src/): a 16-byte address that is neither unspecified nor multicast
(multicast addresses start with byte 0xff). -/
def IsV6UnicastAddress (a : Address) : Bool :=
  a.length == 16 && !(a == IPv6Any) && !(a.headD 0 == 0xff)

/-- Modelled from the spec: `header.SolicitedNodeAddr` — the glossary's
ff02::1:ffXX:XXXX group built from the low 24 bits of the address. -/
def SolicitedNodeAddr (a : Address) : Address :=
  [0xff, 0x02, 0, 0, 0, 0, 0, 0, 0, 0, 0, 1, 0xff, a.getD 13 0, a.getD 14 0, a.getD 15 0]

/-- Modelled from the spec: `header.ScopeForIPv6Address` (header package not
under src/). Scopes are numbered link-local = 0 < unique-local = 1 <
global = 2; link-local multicast (ff.2::/16 with low nibble 2 in byte 1) and
fe80::/10 are link-local, fc00::/7 is unique-local, everything else global.
`none` models the error return on a non-16-byte address. -/
def ScopeForIPv6Address (a : Address) : Option Nat :=
  if a.length ≠ 16 then none
  else if a.headD 0 == 0xff && (a.getD 1 0) % 16 == 2 then some 0
  else if a.headD 0 == 0xfe && (a.getD 1 0) / 64 == 2 then some 0
  else if a.headD 0 / 2 == 0x7e then some 1
  else some 2

/-- Go map assignment `m[k] = v` on an association list: replace the first
binding of `k` if present, otherwise append. -/
def assocSet {α β : Type} [DecidableEq α] : List (α × β) → α → β → List (α × β)
  | [], a, v => [(a, v)]
  | (k, w) :: rest, a, v =>
      if k = a then (a, v) :: rest else (k, w) :: assocSet rest a v

/-- Go map deletion `delete(m, k)`: drop every binding of the key. -/
def assocDelete {α β : Type} [DecidableEq α] : List (α × β) → α → List (α × β)
  | [], _ => []
  | (k, w) :: rest, a =>
      if k = a then assocDelete rest a else (k, w) :: assocDelete rest a

/-- Dereference a cell id (a Go pointer dereference; `none` never occurs for
the states the code manufactures). -/
def heapGet (n : NICState) (rid : Nat) : Option referencedNetworkEndpoint :=
  List.lookup rid n.cells

/-- Mutate the cell behind a pointer. -/
def updateCell (n : NICState) (rid : Nat) (f : referencedNetworkEndpoint → referencedNetworkEndpoint) : NICState :=
  { n with cells := n.cells.map fun p => if p.1 = rid then (p.1, f p.2) else p }

/-- `n.mu.primary[proto]` (missing key reads as the empty slice). -/
def getPrimary (n : NICState) (proto : Nat) : List Nat :=
  (List.lookup proto n.primary).getD []

def setPrimary (n : NICState) (proto : Nat) (lst : List Nat) : NICState :=
  { n with primary := assocSet n.primary proto lst }

/-- `n.mu.mcastJoins[id]` (missing key reads as 0). -/
def joinsCount (n : NICState) (addr : Address) : Nat :=
  (List.lookup addr n.mcastJoins).getD 0

/-- `n.mu.packetEPs[proto]` (missing key reads as the empty slice). -/
def getPacketEPs (n : NICState) (proto : Nat) : List Nat :=
  (List.lookup proto n.packetEPs).getD []

/-- `atomic.AddInt32(&r.refs, 1)` on the cell behind `rid`. -/
def incRefCell (n : NICState) (rid : Nat) : NICState :=
  updateCell n rid fun c => { c with refs := c.refs + 1 }

/-- Remove the first occurrence of `rid` (the Go loop over the primary slice
that deletes the matching element and breaks). -/
def removeFirst : List Nat → Nat → List Nat
  | [], _ => []
  | x :: xs, r => if x = r then xs else x :: removeFirst xs r

/-- `NIC.removeEndpointLocked`. `none` models the Go panic ("Reference count
dropped to zero before being removed") raised when the cell is still
`permanent`; when the table no longer maps the cell's address to this very
cell the call is a no-op. `ep.Close()` is recorded as an event. -/
def removeEndpointLocked (rid : Nat) (n : NICState) : Option NICState :=
  match heapGet n rid with
  | none => none
  | some c =>
    if List.lookup c.addr n.endpoints ≠ some rid then some n
    else if c.kind = .permanent then none
    else
      let n1 := { n with endpoints := assocDelete n.endpoints c.addr }
      let n2 := setPrimary n1 c.protocol (removeFirst (getPrimary n1 c.protocol) rid)
      some { n2 with events := n2.events ++ [.closeEndpoint rid] }

/-- `referencedNetworkEndpoint.decRefLocked`: decrement; on zero run the locked
removal and report that the endpoint was removed. -/
def decRefLocked (n : NICState) (rid : Nat) : Option (Bool × NICState) :=
  match heapGet n rid with
  | none => none
  | some c =>
    let n1 := updateCell n rid fun x => { x with refs := x.refs - 1 }
    if c.refs - 1 = 0 then
      match removeEndpointLocked rid n1 with
      | none => none
      | some n2 => some (true, n2)
    else some (false, n1)

/-- `referencedNetworkEndpoint.decRef`: decrement; on zero acquire the lock and
remove (sequentially identical to the locked variant). -/
def decRef (n : NICState) (rid : Nat) : Option NICState :=
  match decRefLocked n rid with
  | none => none
  | some (_, n1) => some n1

/-- `NIC.insertPrimaryEndpointLocked`: append for CanBePrimaryEndpoint, prepend
for FirstPrimaryEndpoint, nothing for NeverPrimaryEndpoint. -/
def insertPrimaryEndpointLocked (n : NICState) (rid : Nat) (proto : Nat) (peb : PrimaryEndpointBehavior) : NICState :=
  match peb with
  | .CanBePrimaryEndpoint => setPrimary n proto (getPrimary n proto ++ [rid])
  | .FirstPrimaryEndpoint => setPrimary n proto (rid :: getPrimary n proto)
  | .NeverPrimaryEndpoint => n

/-- Outcome of the duplicate-entry block at the top of `NIC.addAddressLocked`:
an early return, a fall-through to fresh creation, or a panic. -/
inductive AddDupOutcome where
  | done (res : Except TcpipError Nat) (n : NICState)
  | continueFresh (n : NICState)
  | panicked

/-- The duplicate-entry block of `NIC.addAddressLocked` (nic.go:579-627): on an
existing entry, non-permanent requests and permanent/tentative existing kinds
fail with DuplicateAddress; expired/temporary entries are promoted in place
when `tryIncRef` succeeds (re-ordering the primary list per the new behavior),
and removed-then-recreated when it fails. The Go loop that scans the primary
slice for the promoted cell removes at most the first occurrence (the slices
the code builds never hold a cell twice). -/
def addAddressDupCheck (pa : ProtocolAddress) (peb : PrimaryEndpointBehavior)
    (kind : networkEndpointKind) (configType : networkEndpointConfigType)
    (deprecated : Bool) (n : NICState) : AddDupOutcome :=
  match List.lookup pa.address n.endpoints with
  | none => .continueFresh n
  | some rid =>
    if kind ≠ .permanent then .done (.error .duplicateAddress) n
    else
      match heapGet n rid with
      | none => .panicked
      | some c =>
        match c.kind with
        | .permanentTentative => .done (.error .duplicateAddress) n
        | .permanent => .done (.error .duplicateAddress) n
        | .permanentExpired | .temporary =>
          if c.refs ≠ 0 then
            let n1 := updateCell (incRefCell n rid) rid fun x =>
              { x with kind := .permanent, deprecated := deprecated, configType := configType }
            let lst := getPrimary n1 c.protocol
            match lst.findIdx? (· = rid) with
            | none => .done (.ok rid) (insertPrimaryEndpointLocked n1 rid c.protocol peb)
            | some i =>
              match peb with
              | .CanBePrimaryEndpoint => .done (.ok rid) n1
              | .FirstPrimaryEndpoint =>
                if i = 0 then .done (.ok rid) n1
                else
                  let n2 := setPrimary n1 c.protocol (lst.eraseIdx i)
                  .done (.ok rid) (insertPrimaryEndpointLocked n2 rid c.protocol peb)
              | .NeverPrimaryEndpoint =>
                .done (.ok rid) (setPrimary n1 c.protocol (lst.eraseIdx i))
          else
            match removeEndpointLocked rid n with
            | none => .panicked
            | some n1 => .continueFresh n1

/-- Fresh-creation tail of `NIC.addAddressLocked`: substitute
permanentTentative for permanent IPv6 unicast adds, allocate the cell with
refcount 1, install it in the table and the primary list, and start DAD when a
tentative entry lands on an enabled NIC (recorded as an event). The
solicited-node join is handled by the callers below. -/
def addAddressFreshCore (pa : ProtocolAddress) (peb : PrimaryEndpointBehavior)
    (kind : networkEndpointKind) (configType : networkEndpointConfigType)
    (deprecated : Bool) (n : NICState) : Except TcpipError Nat × NICState :=
  let isV6U := pa.protocol == IPv6ProtocolNumber && IsV6UnicastAddress pa.address
  let kind' := if isV6U && kind == .permanent then .permanentTentative else kind
  let rid := n.nextCell
  let c : referencedNetworkEndpoint :=
    { addr := pa.address, prefixLen := pa.prefixLen, protocol := pa.protocol,
      refs := 1, kind := kind', configType := configType, deprecated := deprecated }
  let n1 := { n with cells := n.cells ++ [(rid, c)], nextCell := rid + 1 }
  let n2 := { n1 with endpoints := assocSet n1.endpoints pa.address rid }
  let n3 := insertPrimaryEndpointLocked n2 rid pa.protocol peb
  let n4 :=
    if isV6U && kind' == .permanentTentative && n3.enabled then
      { n3 with events := n3.events ++ [.startDAD pa.address] }
    else n3
  (.ok rid, n4)

/-- `NIC.addAddressLocked` specialised to adds whose address is not IPv6
unicast (so the solicited-node join inside it is dead code). Go's
`addAddressLocked` and `joinGroupLocked` recurse through each other via the
solicited-node multicast group; since `SolicitedNodeAddr` always yields a
multicast (never IPv6-unicast) address, that recursion is at most one level
deep and is unfolded here: this core handles the inner level. -/
def addAddressCore (stk : StackState) (pa : ProtocolAddress)
    (peb : PrimaryEndpointBehavior) (kind : networkEndpointKind)
    (configType : networkEndpointConfigType) (deprecated : Bool)
    (n : NICState) : Option (Except TcpipError Nat × NICState) :=
  match addAddressDupCheck pa peb kind configType deprecated n with
  | .panicked => none
  | .done res n1 => some (res, n1)
  | .continueFresh n1 =>
    match List.lookup pa.protocol stk.networkProtocols with
    | none => some (.error .unknownProtocol, n1)
    | some _ => some (addAddressFreshCore pa peb kind configType deprecated n1)

/-- `NIC.joinGroupLocked` for the solicited-node groups created inside
`addAddressLocked` (their addresses are multicast, so the inner add never
joins a further group). -/
def joinGroupLockedCore (stk : StackState) (protocol : Nat) (addr : Address)
    (n : NICState) : Option (Option TcpipError × NICState) :=
  let joins := joinsCount n addr
  if joins = 0 then
    match List.lookup protocol stk.networkProtocols with
    | none => some (some .unknownProtocol, n)
    | some info =>
      match addAddressCore stk ⟨protocol, addr, info.defaultPrefixLen⟩
          .NeverPrimaryEndpoint .permanent .static false n with
      | none => none
      | some (.error e, n1) => some (some e, n1)
      | some (.ok _, n1) =>
        some (none, { n1 with mcastJoins := assocSet n1.mcastJoins addr (joins + 1) })
  else some (none, { n with mcastJoins := assocSet n.mcastJoins addr (joins + 1) })

/-- `NIC.addAddressLocked` (nic.go:575-688). Adding an IPv6 unicast address
joins its solicited-node multicast group before the table insertion; errors
from that join abort the add. -/
def addAddressLocked (stk : StackState) (pa : ProtocolAddress)
    (peb : PrimaryEndpointBehavior) (kind : networkEndpointKind)
    (configType : networkEndpointConfigType) (deprecated : Bool)
    (n : NICState) : Option (Except TcpipError Nat × NICState) :=
  match addAddressDupCheck pa peb kind configType deprecated n with
  | .panicked => none
  | .done res n1 => some (res, n1)
  | .continueFresh n1 =>
    match List.lookup pa.protocol stk.networkProtocols with
    | none => some (.error .unknownProtocol, n1)
    | some _ =>
      if pa.protocol == IPv6ProtocolNumber && IsV6UnicastAddress pa.address then
        match joinGroupLockedCore stk pa.protocol (SolicitedNodeAddr pa.address) n1 with
        | none => none
        | some (some e, n2) => some (.error e, n2)
        | some (none, n2) => some (addAddressFreshCore pa peb kind configType deprecated n2)
      else some (addAddressFreshCore pa peb kind configType deprecated n1)

/-- `NIC.joinGroupLocked` (nic.go:956-981): create the backing permanent static
NeverPrimary entry on the first join, then bump the count. -/
def joinGroupLocked (stk : StackState) (protocol : Nat) (addr : Address)
    (n : NICState) : Option (Option TcpipError × NICState) :=
  let joins := joinsCount n addr
  if joins = 0 then
    match List.lookup protocol stk.networkProtocols with
    | none => some (some .unknownProtocol, n)
    | some info =>
      match addAddressLocked stk ⟨protocol, addr, info.defaultPrefixLen⟩
          .NeverPrimaryEndpoint .permanent .static false n with
      | none => none
      | some (.error e, n1) => some (some e, n1)
      | some (.ok _, n1) =>
        some (none, { n1 with mcastJoins := assocSet n1.mcastJoins addr (joins + 1) })
  else some (none, { n with mcastJoins := assocSet n.mcastJoins addr (joins + 1) })

/-- `NIC.removePermanentAddressLocked` specialised to non-IPv6-unicast
addresses (the level reached through a solicited-node leave, whose address is
multicast): fails unless the entry is permanent/permanentTentative, flips it
to permanentExpired and drops the +1 bias. -/
def removePermanentAddressCore (addr : Address) (n : NICState) : Option (Option TcpipError × NICState) :=
  match List.lookup addr n.endpoints with
  | none => some (some .badLocalAddress, n)
  | some rid =>
    match heapGet n rid with
    | none => none
    | some c =>
      if c.kind ≠ .permanent ∧ c.kind ≠ .permanentTentative then
        some (some .badLocalAddress, n)
      else
        let isV6U := c.protocol == IPv6ProtocolNumber && IsV6UnicastAddress addr
        let n1 :=
          if isV6U && c.kind == .permanentTentative then
            { n with events := n.events ++ [.stopDAD addr] }
          else n
        let n2 :=
          if isV6U && c.configType == .slaac then
            { n1 with events := n1.events ++ [.cleanupAutoGenAddr addr] }
          else n1
        let n3 := updateCell n2 rid fun x => { x with kind := .permanentExpired }
        match decRefLocked n3 rid with
        | none => none
        | some (_, n4) => some (none, n4)

/-- `NIC.leaveGroupLocked` for solicited-node groups (multicast addresses, so
the removal inside never leaves a further group). Go's three-way switch on the
count (0 / 1 / default) is written as an if-chain; the decrement after the
switch applies on both surviving paths. -/
def leaveGroupLockedCore (addr : Address) (n : NICState) : Option (Option TcpipError × NICState) :=
  let joins := joinsCount n addr
  if joins = 0 then some (some .badLocalAddress, n)
  else if joins = 1 then
    match removePermanentAddressCore addr n with
    | none => none
    | some (some e, n1) => some (some e, n1)
    | some (none, n1) =>
      some (none, { n1 with mcastJoins := assocSet n1.mcastJoins addr (joins - 1) })
  else some (none, { n with mcastJoins := assocSet n.mcastJoins addr (joins - 1) })

/-- `NIC.removePermanentAddressLocked` (nic.go:890-935): stop DAD for
tentative IPv6 unicast addresses, notify SLAAC teardown (events), expire the
entry and drop its bias; when the cell dies and the address is IPv6 unicast,
leave its solicited-node group. -/
def removePermanentAddressLocked (addr : Address) (n : NICState) : Option (Option TcpipError × NICState) :=
  match List.lookup addr n.endpoints with
  | none => some (some .badLocalAddress, n)
  | some rid =>
    match heapGet n rid with
    | none => none
    | some c =>
      if c.kind ≠ .permanent ∧ c.kind ≠ .permanentTentative then
        some (some .badLocalAddress, n)
      else
        let isV6U := c.protocol == IPv6ProtocolNumber && IsV6UnicastAddress addr
        let n1 :=
          if isV6U && c.kind == .permanentTentative then
            { n with events := n.events ++ [.stopDAD addr] }
          else n
        let n2 :=
          if isV6U && c.configType == .slaac then
            { n1 with events := n1.events ++ [.cleanupAutoGenAddr addr] }
          else n1
        let n3 := updateCell n2 rid fun x => { x with kind := .permanentExpired }
        match decRefLocked n3 rid with
        | none => none
        | some (died, n4) =>
          if !died then some (none, n4)
          else if isV6U then
            match leaveGroupLockedCore (SolicitedNodeAddr addr) n4 with
            | none => none
            | some (some e, n5) => some (some e, n5)
            | some (none, n5) => some (none, n5)
          else some (none, n4)

/-- `NIC.leaveGroupLocked` (nic.go:995-1010): zero joins fail with
BadLocalAddress; the last leave runs the permanent removal path; the count is
decremented on success (Go's switch on the count is written as an if-chain). -/
def leaveGroupLocked (addr : Address) (n : NICState) : Option (Option TcpipError × NICState) :=
  let joins := joinsCount n addr
  if joins = 0 then some (some .badLocalAddress, n)
  else if joins = 1 then
    match removePermanentAddressLocked addr n with
    | none => none
    | some (some e, n1) => some (some e, n1)
    | some (none, n1) =>
      some (none, { n1 with mcastJoins := assocSet n1.mcastJoins addr (joins - 1) })
  else some (none, { n with mcastJoins := assocSet n.mcastJoins addr (joins - 1) })

/-- `stack.getRefBehaviour` from nic.go. -/
inductive getRefBehaviour where
  | spoofing
  | promiscuous
  | forceSpoofing
deriving DecidableEq, Repr

/-- The flag `getRefOrCreateTemp` selects from its `tempRef` argument. -/
def selectedModeFlag (n : NICState) : getRefBehaviour → Bool
  | .spoofing => n.spoofing
  | .promiscuous => n.promiscuous
  | .forceSpoofing => true

/-- The address-range scan of `getRefOrCreateTemp` (nic.go:510-527): the
address must lie in some configured subnet, skipping each subnet's network
address and (until directed broadcast is supported) its broadcast address. -/
def addressInRanges (n : NICState) (address : Address) : Bool :=
  n.addressRanges.any fun sn =>
    !(address == sn.ID) && !(address == sn.Broadcast) && sn.Contains address

/-- Tail of `getRefOrCreateTemp`: add a new temporary endpoint with the
protocol's default prefix length; the returned error is discarded
(`ref, _ := n.addAddressLocked(...)`). -/
def getRefCreateTemp (stk : StackState) (protocol : Nat) (address : Address)
    (peb : PrimaryEndpointBehavior) (n : NICState) : Option (Option Nat × NICState) :=
  match List.lookup protocol stk.networkProtocols with
  | none => some (none, n)
  | some info =>
    match addAddressLocked stk ⟨protocol, address, info.defaultPrefixLen⟩
        peb .temporary .static false n with
    | none => none
    | some (.error _, n1) => some (none, n1)
    | some (.ok rid, n1) => some (some rid, n1)

/-- `NIC.getRefOrCreateTemp` (nic.go:475-568). Read phase: an existing
permanentExpired entry is usable only under the selected mode flag, temporary
and permanent entries whenever `tryIncRef` succeeds, and a permanentTentative
entry is not matched by the switch (it falls through to the creation
decision). Creation phase: synthesize a temporary entry iff the mode flag is
set or the address lies in a configured range; the write-locked re-check
accepts any existing entry whose `tryIncRef` succeeds and removes a dead
predecessor before adding. -/
def getRefOrCreateTemp (stk : StackState) (protocol : Nat) (address : Address)
    (peb : PrimaryEndpointBehavior) (tempRef : getRefBehaviour)
    (n : NICState) : Option (Option Nat × NICState) :=
  let sp := selectedModeFlag n tempRef
  let early : Option (Option (Option Nat × NICState)) :=
    match List.lookup address n.endpoints with
    | none => some none
    | some rid =>
      match heapGet n rid with
      | none => none
      | some c =>
        match c.kind with
        | .permanentExpired =>
          if !sp then some (some (none, n))
          else if c.refs ≠ 0 then some (some (some rid, incRefCell n rid))
          else some none
        | .temporary | .permanent =>
          if c.refs ≠ 0 then some (some (some rid, incRefCell n rid))
          else some none
        | .permanentTentative => some none
  match early with
  | none => none
  | some (some r) => some r
  | some none =>
    let createTempEP := sp || addressInRanges n address
    if !createTempEP then some (none, n)
    else
      match List.lookup address n.endpoints with
      | some rid =>
        match heapGet n rid with
        | none => none
        | some c =>
          if c.refs ≠ 0 then some (some rid, incRefCell n rid)
          else
            match removeEndpointLocked rid n with
            | none => none
            | some n1 => getRefCreateTemp stk protocol address peb n1
      | none => getRefCreateTemp stk protocol address peb n

/-- `NIC.getRef`: the promiscuous-flavoured lookup used by the receive path. -/
def getRef (stk : StackState) (protocol : Nat) (dst : Address) (n : NICState) :
    Option (Option Nat × NICState) :=
  getRefOrCreateTemp stk protocol dst .CanBePrimaryEndpoint .promiscuous n

/-- `referencedNetworkEndpoint.isValidForOutgoingRLocked`: not expired, or the
NIC is spoofing. -/
def isValidForOutgoing (n : NICState) (c : referencedNetworkEndpoint) : Bool :=
  !(c.kind == .permanentExpired) || n.spoofing

/-- `stack.ipv6AddrCandidate` plus the fields the comparator reads from the
referenced endpoint (its address and deprecated flag). -/
structure ipv6AddrCandidate where
  ref : Nat
  addr : Address
  scope : Nat
  deprecated : Bool
deriving DecidableEq, Repr

/-- The `sort.Slice` comparator of `primaryIPv6Endpoint` (nic.go:388-416):
rule 1 prefers the candidate equal to the remote address; rule 2 prefers an
appropriate scope with the source's asymmetry (if Sa < Sb then a wins iff
Sa ≥ remoteScope, if Sb < Sa then a wins iff Sb < remoteScope); rule 3 avoids
deprecated addresses; equal candidates keep list order (the source's `i < j`
tie-break, realised below by a stable sort). -/
def sasLess (remoteAddr : Address) (remoteScope : Nat) (sa sb : ipv6AddrCandidate) : Bool :=
  if sa.addr == remoteAddr then true
  else if sb.addr == remoteAddr then false
  else if sa.scope < sb.scope then decide (remoteScope ≤ sa.scope)
  else if sb.scope < sa.scope then decide (sb.scope < remoteScope)
  else if sa.deprecated != sb.deprecated then sb.deprecated
  else false

/-- Stable insertion of a candidate: it goes after every element that strictly
precedes it under the comparator. -/
def sasInsert (less : ipv6AddrCandidate → ipv6AddrCandidate → Bool)
    (x : ipv6AddrCandidate) : List ipv6AddrCandidate → List ipv6AddrCandidate
  | [] => [x]
  | y :: ys => if less y x then y :: sasInsert less x ys else x :: y :: ys

/-- Stable sort realising `sort.Slice` with the rule-1/2/3 comparator (the
source's `i < j` final clause makes equal candidates keep list order, which a
stable sort provides). -/
def sasSort (less : ipv6AddrCandidate → ipv6AddrCandidate → Bool) :
    List ipv6AddrCandidate → List ipv6AddrCandidate
  | [] => []
  | x :: xs => sasInsert less x (sasSort less xs)

/-- Candidate-set construction of `primaryIPv6Endpoint` (nic.go:357-377):
filter the primary list to entries valid for outgoing and annotate each with
its scope. A scope failure is `log.Fatalf` (modelled `none`), as is a dangling
cell id. -/
def buildCandidates (n : NICState) : List Nat → Option (List ipv6AddrCandidate)
  | [] => some []
  | rid :: rest =>
    match heapGet n rid with
    | none => none
    | some c =>
      if !isValidForOutgoing n c then buildCandidates n rest
      else
        match ScopeForIPv6Address c.addr with
        | none => none
        | some scope =>
          match buildCandidates n rest with
          | none => none
          | some cs => some ({ ref := rid, addr := c.addr, scope := scope, deprecated := c.deprecated } :: cs)

/-- Return the most preferred candidate whose refcount increment succeeds
(nic.go:420-426). -/
def firstTryIncRef (n : NICState) : List ipv6AddrCandidate → Option (Option Nat × NICState)
  | [] => some (none, n)
  | cand :: rest =>
    match heapGet n cand.ref with
    | none => none
    | some c =>
      if c.refs ≠ 0 then some (some cand.ref, incRefCell n cand.ref)
      else firstTryIncRef n rest

/-- `NIC.primaryIPv6Endpoint` (nic.go:345-427): RFC 6724 source address
selection, rules 1-3 only. -/
def primaryIPv6Endpoint (n : NICState) (remoteAddr : Address) : Option (Option Nat × NICState) :=
  let primaryAddrs := getPrimary n IPv6ProtocolNumber
  if primaryAddrs.isEmpty then some (none, n)
  else
    match buildCandidates n primaryAddrs with
    | none => none
    | some cs =>
      match ScopeForIPv6Address remoteAddr with
      | none => none
      | some remoteScope =>
        firstTryIncRef n (sasSort (sasLess remoteAddr remoteScope) cs)

/-- `NIC.AllAddresses` (nic.go:703-724): every table entry except
permanentExpired and temporary ones. -/
def AllAddresses (n : NICState) : List ProtocolAddress :=
  n.endpoints.filterMap fun p =>
    match heapGet n p.2 with
    | none => none
    | some c =>
      match c.kind with
      | .permanentExpired | .temporary => none
      | _ => some ⟨c.protocol, p.1, c.prefixLen⟩

/-- `NIC.PrimaryAddresses` (nic.go:727-752): every primary-list entry except
permanentTentative, permanentExpired and temporary ones. -/
def PrimaryAddresses (n : NICState) : List ProtocolAddress :=
  List.foldr (fun p acc =>
    (p.2.filterMap fun rid =>
      match heapGet n rid with
      | none => none
      | some c =>
        match c.kind with
        | .permanentTentative | .permanentExpired | .temporary => none
        | .permanent => some ⟨p.1, c.addr, c.prefixLen⟩) ++ acc) [] n.primary

/-- Walk of `NIC.primaryAddress` over the protocol's primary list, tracking
the first deprecated endpoint (nic.go:768-796). -/
def primaryAddressLoop (n : NICState) (dep : Option referencedNetworkEndpoint) :
    List Nat → Address × Nat
  | [] =>
    match dep with
    | some c => (c.addr, c.prefixLen)
    | none => ([], 0)
  | rid :: rest =>
    match heapGet n rid with
    | none => primaryAddressLoop n dep rest
    | some c =>
      match c.kind with
      | .permanentTentative | .permanentExpired | .temporary => primaryAddressLoop n dep rest
      | .permanent =>
        if !c.deprecated then (c.addr, c.prefixLen)
        else
          match dep with
          | none => primaryAddressLoop n (some c) rest
          | some d => primaryAddressLoop n (some d) rest

/-- `NIC.primaryAddress` (nic.go:759-797): the first non-deprecated primary
entry, else the first deprecated one, else the zero value (returned as an
address/prefix-length pair). -/
def primaryAddress (n : NICState) (proto : Nat) : Address × Nat :=
  match List.lookup proto n.primary with
  | none => ([], 0)
  | some lst => primaryAddressLoop n none lst

/-- One step of the DAD walk in `NIC.enable` (nic.go:191-201): permanent and
permanentTentative IPv6 unicast endpoints are made tentative and DAD is
started for them (recorded as an event; `startDuplicateAddressDetection` is
modelled, per the spec's NDP contract, as succeeding). -/
def enableDadStep (n : NICState) (rid : Nat) : NICState :=
  match heapGet n rid with
  | none => n
  | some c =>
    if (c.kind == .permanent || c.kind == .permanentTentative) && IsV6UnicastAddress c.addr then
      let n1 := updateCell n rid fun x => { x with kind := .permanentTentative }
      { n1 with events := n1.events ++ [.startDAD c.addr] }
    else n

/-- IPv6 half of `NIC.enable` (nic.go:181-225): re-run DAD over the permanent
IPv6 unicast endpoints, join ff02::1, run SLAAC for the link-local prefix on
non-loopback NICs when configured, and start router solicitation when the
stack is not forwarding. -/
def enableIPv6Part (stk : StackState) (n : NICState) : Option (Option TcpipError × NICState) :=
  match List.lookup IPv6ProtocolNumber stk.networkProtocols with
  | none => some (none, n)
  | some _ =>
    let n1 := n.endpoints.foldl (fun acc p => enableDadStep acc p.2) n
    match joinGroupLocked stk IPv6ProtocolNumber IPv6AllNodesMulticastAddress n1 with
    | none => none
    | some (some e, n2) => some (some e, n2)
    | some (none, n2) =>
      let n3 :=
        if stk.autoGenIPv6LinkLocal && !n2.loopback then
          { n2 with events := n2.events ++ [.doSLAAC] }
        else n2
      let n4 :=
        if !stk.forwarding then
          { n3 with events := n3.events ++ [.startSolicitingRouters] }
        else n3
      some (none, n4)

/-- `NIC.enable` (nic.go:140-226): idempotent; sets the enabled flag, attaches
the link endpoint, adds the IPv4 limited broadcast address as a permanent
static NeverPrimary entry with prefix length `8 * IPv4AddressSize` when IPv4
is registered, then runs the IPv6 half. -/
def enable (stk : StackState) (n : NICState) : Option (Option TcpipError × NICState) :=
  if n.enabled then some (none, n)
  else
    let n1 := { n with enabled := true, events := n.events ++ [.attachLink] }
    match List.lookup IPv4ProtocolNumber stk.networkProtocols with
    | none => enableIPv6Part stk n1
    | some _ =>
      match addAddressLocked stk ⟨IPv4ProtocolNumber, IPv4Broadcast, 8 * IPv4AddressSize⟩
          .NeverPrimaryEndpoint .permanent .static false n1 with
      | none => none
      | some (.error e, n2) => some (some e, n2)
      | some (.ok _, n2) => enableIPv6Part stk n2

/-- How a run of `DeliverNetworkPacket` ended. `forwardingPhase` marks the miss
path with stack forwarding enabled, which hands over to the stack's routing
collaborator (`FindRoute`, forwarder queue) and is not modelled further. -/
inductive DeliverOutcome where
  | disabledDrop
  | unknownProtocol
  | malformed
  | invalidSource
  | delivered (rid : Nat)
  | forwardingPhase (src dst : Address)
  | invalidDestination
  | observedOnly
deriving DecidableEq, Repr

/-- Everything observable about one `DeliverNetworkPacket` run: the new NIC
state, both counter records, the packet observers invoked (in order), and how
the run ended. -/
structure DeliverResult where
  nic : NICState
  nicStats : NICStatsM
  stackStats : StackStatsM
  observersInvoked : List Nat
  outcome : DeliverOutcome
deriving DecidableEq, Repr

/-- Local-delivery tail of `DeliverNetworkPacket` (nic.go:1085-1137): try the
destination via `getRef`; on success `handlePacket` hands the packet to the
endpoint and drops the reference; on a miss either enter the forwarding phase,
or count InvalidDestinationAddressesReceived only when no packet observer saw
the packet. -/
def deliverLocal (stk : StackState) (protocol : Nat) (src dst : Address)
    (packetEPs : List Nat) (n : NICState) (ns : NICStatsM) (ss : StackStatsM)
    (observers : List Nat) : Option DeliverResult :=
  match getRef stk protocol dst n with
  | none => none
  | some (some rid, n1) =>
    match decRef n1 rid with
    | none => none
    | some n2 =>
      some { nic := n2, nicStats := ns, stackStats := ss,
             observersInvoked := observers, outcome := .delivered rid }
  | some (none, n1) =>
    if stk.forwarding then
      some { nic := n1, nicStats := ns, stackStats := ss,
             observersInvoked := observers, outcome := .forwardingPhase src dst }
    else if packetEPs.isEmpty then
      some { nic := n1, nicStats := ns,
             stackStats := { ss with invalidDestinationAddressesReceived :=
               ss.invalidDestinationAddressesReceived + 1 },
             observersInvoked := observers, outcome := .invalidDestination }
    else
      some { nic := n1, nicStats := ns, stackStats := ss,
             observersInvoked := observers, outcome := .observedOnly }

/-- `NIC.DeliverNetworkPacket` (nic.go:1025-1138). A disabled NIC counts
DisabledRx and returns; otherwise Rx is counted, the protocol resolved, the
observer fan-out list built (protocol-specific observers, then the
EthernetProtocolAll ones) and invoked, IP reception counted, the minimum
header length checked, addresses parsed, the handleLocal source check run
through `getRef`, and local delivery attempted. -/
def DeliverNetworkPacket (stk : StackState) (protocol : Nat)
    (_remote localAddr : Address) (pkt : Packet) (n : NICState) (ns : NICStatsM)
    (ss : StackStatsM) : Option DeliverResult :=
  if !n.enabled then
    let nsd := { ns with disabledRxPackets := ns.disabledRxPackets + 1,
                         disabledRxBytes := ns.disabledRxBytes + pkt.dataSize }
    some { nic := n, nicStats := nsd, stackStats := ss,
           observersInvoked := [], outcome := .disabledDrop }
  else
    let ns1 := { ns with rxPackets := ns.rxPackets + 1, rxBytes := ns.rxBytes + pkt.dataSize }
    match List.lookup protocol stk.networkProtocols with
    | none =>
      some { nic := n, nicStats := ns1,
             stackStats := { ss with unknownProtocolRcvdPackets := ss.unknownProtocolRcvdPackets + 1 },
             observersInvoked := [], outcome := .unknownProtocol }
    | some netProto =>
      let _local1 := if localAddr.isEmpty then n.linkAddress else localAddr
      let packetEPs := getPacketEPs n protocol ++
        (if protocol ≠ EthernetProtocolAll then getPacketEPs n EthernetProtocolAll else [])
      let observers := packetEPs
      let ss1 :=
        if netProto.number == IPv4ProtocolNumber || netProto.number == IPv6ProtocolNumber then
          { ss with ipPacketsReceived := ss.ipPacketsReceived + 1 }
        else ss
      if pkt.first.length < netProto.minimumPacketSize then
        some { nic := n, nicStats := ns1,
               stackStats := { ss1 with malformedRcvdPackets := ss1.malformedRcvdPackets + 1 },
               observersInvoked := observers, outcome := .malformed }
      else
        let sd := netProto.parseAddresses pkt.first
        if stk.handleLocal && !n.loopback then
          match getRef stk protocol sd.1 n with
          | none => none
          | some (some _, n1) =>
            some { nic := n1, nicStats := ns1,
                   stackStats := { ss1 with invalidSourceAddressesReceived :=
                     ss1.invalidSourceAddressesReceived + 1 },
                   observersInvoked := observers, outcome := .invalidSource }
          | some (none, n1) => deliverLocal stk protocol sd.1 sd.2 packetEPs n1 ns1 ss1 observers
        else deliverLocal stk protocol sd.1 sd.2 packetEPs n ns1 ss1 observers

/-- Iterate `joinGroupLocked`, stopping on the first error. -/
def joinN (stk : StackState) (protocol : Nat) (addr : Address) :
    Nat → NICState → Option (Option TcpipError × NICState)
  | 0, n => some (none, n)
  | k + 1, n =>
    match joinGroupLocked stk protocol addr n with
    | none => none
    | some (some e, n1) => some (some e, n1)
    | some (none, n1) => joinN stk protocol addr k n1

/-- Iterate `leaveGroupLocked`, stopping on the first error. -/
def leaveN (addr : Address) : Nat → NICState → Option (Option TcpipError × NICState)
  | 0, n => some (none, n)
  | k + 1, n =>
    match leaveGroupLocked addr n with
    | none => none
    | some (some e, n1) => some (some e, n1)
    | some (none, n1) => leaveN addr k n1

/-- A concrete IPv4 protocol instance for instantiating the theorems: minimum
header 20 bytes, default prefix length 24, addresses parsed from the first
eight bytes of the header region. -/
def ipv4Info : NetProtoInfo :=
  { number := IPv4ProtocolNumber, minimumPacketSize := 20, defaultPrefixLen := 24,
    parseAddresses := fun b => (b.take 4, (b.drop 4).take 4) }

/-- A concrete IPv6 protocol instance for instantiating the theorems. -/
def ipv6Info : NetProtoInfo :=
  { number := IPv6ProtocolNumber, minimumPacketSize := 40, defaultPrefixLen := 64,
    parseAddresses := fun b => (b.take 16, (b.drop 16).take 16) }

/-- A stack with IPv4 and IPv6 registered, handleLocal set, forwarding off,
link-local autogeneration on. -/
def stk0 : StackState :=
  { networkProtocols := [(IPv4ProtocolNumber, ipv4Info), (IPv6ProtocolNumber, ipv6Info)],
    handleLocal := true, forwarding := false, autoGenIPv6LinkLocal := true }

/-- A freshly constructed, disabled NIC with an empty table. -/
def emptyNIC : NICState :=
  { enabled := false, promiscuous := false, spoofing := false, loopback := false,
    linkAddress := [1, 2, 3, 4, 5, 6], cells := [], endpoints := [], primary := [],
    addressRanges := [], mcastJoins := [], packetEPs := [], events := [], nextCell := 0 }

/-- fe80::1. -/
def fe80_1 : Address := [0xfe, 0x80, 0, 0, 0, 0, 0, 0, 0, 0, 0, 0, 0, 0, 0, 1]

/-- 2001:db8::1. -/
def db8_1 : Address := [0x20, 0x01, 0x0d, 0xb8, 0, 0, 0, 0, 0, 0, 0, 0, 0, 0, 0, 1]

/-- 2001:db8::2. -/
def db8_2 : Address := [0x20, 0x01, 0x0d, 0xb8, 0, 0, 0, 0, 0, 0, 0, 0, 0, 0, 0, 2]

/-- 2001:db8::3. -/
def db8_3 : Address := [0x20, 0x01, 0x0d, 0xb8, 0, 0, 0, 0, 0, 0, 0, 0, 0, 0, 0, 3]

/-- A permanent IPv6 endpoint cell with one live reference. -/
def mkCellV6 (a : Address) (dep : Bool) : referencedNetworkEndpoint :=
  { addr := a, prefixLen := 64, protocol := IPv6ProtocolNumber, refs := 1,
    kind := .permanent, configType := .static, deprecated := dep }

/-- The source-selection scenario: primary IPv6 list
[fe80::1, 2001:db8::2 (deprecated), 2001:db8::3], all permanent with live
references. -/
def nicC5 : NICState :=
  { emptyNIC with
      enabled := true,
      cells := [(1, mkCellV6 fe80_1 false), (2, mkCellV6 db8_2 true), (3, mkCellV6 db8_3 false)],
      endpoints := [(fe80_1, 1), (db8_2, 2), (db8_3, 3)],
      primary := [(IPv6ProtocolNumber, [1, 2, 3])], nextCell := 4 }

/-- 10.0.0.1. -/
def addrA : Address := [10, 0, 0, 1]

/-- 10.0.0.2. -/
def addrB : Address := [10, 0, 0, 2]

/-- A temporary IPv4 cell with one live reference. -/
def tempCell (a : Address) : referencedNetworkEndpoint :=
  { addr := a, prefixLen := 24, protocol := IPv4ProtocolNumber, refs := 1,
    kind := .temporary, configType := .static, deprecated := false }

/-- A permanent IPv4 cell with two live references. -/
def permCell (a : Address) : referencedNetworkEndpoint :=
  { addr := a, prefixLen := 24, protocol := IPv4ProtocolNumber, refs := 2,
    kind := .permanent, configType := .static, deprecated := false }

/-- A NIC whose primary IPv4 list is [A (temporary), B (permanent)]. -/
def nicC3 : NICState :=
  { emptyNIC with
      enabled := true,
      cells := [(0, tempCell addrA), (1, permCell addrB)],
      endpoints := [(addrA, 0), (addrB, 1)],
      primary := [(IPv4ProtocolNumber, [0, 1])], nextCell := 2 }

/-- The same NIC without A: what a fresh Add of A would see. -/
def nicC3b : NICState :=
  { emptyNIC with
      enabled := true, cells := [(1, permCell addrB)],
      endpoints := [(addrB, 1)], primary := [(IPv4ProtocolNumber, [1])], nextCell := 2 }

/-- 10.0.0.9. -/
def srcAddr : Address := [10, 0, 0, 9]

/-- 10.0.0.7. -/
def dstAddr : Address := [10, 0, 0, 7]

/-- A non-loopback NIC owning 10.0.0.9 as a permanent address. -/
def nicC2 : NICState :=
  { emptyNIC with
      enabled := true,
      cells := [(0, permCell srcAddr)], endpoints := [(srcAddr, 0)],
      primary := [(IPv4ProtocolNumber, [0])], nextCell := 1 }

/-- A packet whose parsed source is 10.0.0.9 (the NIC's own address) and whose
destination is 10.0.0.7. -/
def pktC2 : Packet := { dataSize := 28, first := srcAddr ++ dstAddr ++ List.replicate 20 0 }

/-- A permanentTentative (DAD still running) IPv6 cell with one live
reference. -/
def tentCell (a : Address) : referencedNetworkEndpoint :=
  { addr := a, prefixLen := 64, protocol := IPv6ProtocolNumber, refs := 1,
    kind := .permanentTentative, configType := .static, deprecated := false }

/-- A promiscuous NIC holding a tentative entry for fe80::1. -/
def nicC10 : NICState :=
  { emptyNIC with
      enabled := true, promiscuous := true,
      cells := [(0, tentCell fe80_1)], endpoints := [(fe80_1, 0)],
      primary := [(IPv6ProtocolNumber, [0])], nextCell := 1 }

/-- 224.0.0.251, an IPv4 multicast group. -/
def mcastAddr : Address := [224, 0, 0, 251]

/-- An enabled NIC with an empty table, for the join/leave scenario. -/
def nicC8 : NICState := { emptyNIC with enabled := true }

/-- All-zero NIC counters. -/
def nicStats0 : NICStatsM := ⟨0, 0, 0, 0, 0, 0⟩

/-- All-zero stack counters. -/
def stackStats0 : StackStatsM := ⟨0, 0, 0, 0, 0⟩

/-- The nicC2 interface before it is enabled. -/
def disabledNIC : NICState := { nicC2 with enabled := false }

/-- Well-formedness facts every state built by the code enjoys: each table
entry points at an allocated cell, and every allocated or referenced cell id
is below the allocation counter. -/
def CellsWF (n : NICState) : Prop :=
  (∀ p ∈ n.endpoints, (heapGet n p.2).isSome = true) ∧
  (∀ p ∈ n.endpoints, p.2 < n.nextCell) ∧
  (∀ pr ∈ n.primary, ∀ rid ∈ pr.2, rid < n.nextCell) ∧
  (∀ pc ∈ n.cells, pc.1 < n.nextCell)

section Lemmas

theorem lookup_assocSet_self {α β : Type} [BEq α] [LawfulBEq α] [DecidableEq α] (m : List (α × β)) (a : α) (v : β) :
    List.lookup a (assocSet m a v) = some v := by
  induction m with
  | nil => simp [assocSet]
  | cons p rest ih =>
    by_cases h : p.1 = a
    · simp [assocSet, h]
    · simpa [assocSet, h, List.lookup, beq_false_of_ne (Ne.symm h)] using ih

theorem lookup_assocSet_ne {α β : Type} [BEq α] [LawfulBEq α] [DecidableEq α] (m : List (α × β)) (a b : α) (v : β)
    (h : b ≠ a) : List.lookup b (assocSet m a v) = List.lookup b m := by
  induction m with
  | nil => simp [assocSet, List.lookup, beq_false_of_ne h]
  | cons p rest ih =>
    by_cases hp : p.1 = a
    · subst hp
      simp [assocSet, List.lookup, beq_false_of_ne h]
    · simp only [assocSet, if_neg hp]
      cases hb : (b == p.1) <;> simp [List.lookup, hb, ih]

theorem assocSet_assocSet {α β : Type} [DecidableEq α] (m : List (α × β)) (a : α) (x y : β) :
    assocSet (assocSet m a x) a y = assocSet m a y := by
  induction m with
  | nil => simp [assocSet]
  | cons p rest ih =>
    by_cases hp : p.1 = a
    · simp [assocSet, hp]
    · simp [assocSet, hp, ih]

theorem lookup_assocDelete_self {α β : Type} [BEq α] [LawfulBEq α] [DecidableEq α] (m : List (α × β)) (a : α) :
    List.lookup a (assocDelete m a) = none := by
  induction m with
  | nil => rfl
  | cons p rest ih =>
    rcases p with ⟨k, w⟩
    by_cases hp : k = a
    · simpa [assocDelete, hp] using ih
    · simpa [assocDelete, hp, List.lookup, beq_false_of_ne (Ne.symm hp)] using ih

theorem lookup_assocDelete_ne {α β : Type} [BEq α] [LawfulBEq α] [DecidableEq α] (m : List (α × β)) (a b : α)
    (h : b ≠ a) : List.lookup b (assocDelete m a) = List.lookup b m := by
  induction m with
  | nil => rfl
  | cons p rest ih =>
    rcases p with ⟨k, w⟩
    by_cases hp : k = a
    · have hb : (b == a) = false := beq_false_of_ne h
      simpa [assocDelete, hp, List.lookup, hb] using ih
    · cases hb : (b == k) with
      | false => simpa [assocDelete, hp, List.lookup, hb] using ih
      | true => simp [assocDelete, hp, List.lookup, hb]

theorem lookup_append_left {α β : Type} [BEq α] (l1 l2 : List (α × β)) (k : α) (v : β)
    (h : List.lookup k l1 = some v) : List.lookup k (l1 ++ l2) = some v := by
  induction l1 with
  | nil => simp [List.lookup] at h
  | cons p rest ih =>
    rw [List.cons_append]
    cases hb : (k == p.1) with
    | false =>
      simp only [List.lookup, hb] at h ⊢
      exact ih h
    | true =>
      simp only [List.lookup, hb] at h ⊢
      exact h

theorem lookup_append_right {α β : Type} [BEq α] (l1 l2 : List (α × β)) (k : α)
    (h : List.lookup k l1 = none) : List.lookup k (l1 ++ l2) = List.lookup k l2 := by
  induction l1 with
  | nil => simp
  | cons p rest ih =>
    rw [List.cons_append]
    cases hb : (k == p.1) with
    | false =>
      simp only [List.lookup, hb] at h ⊢
      exact ih h
    | true =>
      simp only [List.lookup, hb] at h
      exact absurd h (by simp)

theorem lookup_map_update {β : Type} (l : List (Nat × β)) (r x : Nat) (f : β → β) :
    List.lookup x (l.map fun p => if p.1 = r then (p.1, f p.2) else p) =
      if x = r then (List.lookup x l).map f else List.lookup x l := by
  induction l with
  | nil => simp [List.lookup]
  | cons p rest ih =>
    rw [List.map_cons]
    by_cases hp : p.1 = r
    · rw [if_pos hp]
      by_cases hx : x = p.1
      · have hxr : x = r := hx.trans hp
        have hb : (x == p.1) = true := beq_iff_eq.mpr hx
        simp only [List.lookup, hb, if_pos hxr]
        rfl
      · have hb : (x == p.1) = false := beq_false_of_ne hx
        simp only [List.lookup, hb]
        exact ih
    · rw [if_neg hp]
      by_cases hx : x = p.1
      · have hxr : x ≠ r := fun hq => hp (hx.symm.trans hq)
        have hb : (x == p.1) = true := beq_iff_eq.mpr hx
        simp only [List.lookup, hb, if_neg hxr]
      · have hb : (x == p.1) = false := beq_false_of_ne hx
        simp only [List.lookup, hb]
        exact ih

theorem heapGet_updateCell (n : NICState) (r x : Nat) (f : referencedNetworkEndpoint → referencedNetworkEndpoint) :
    heapGet (updateCell n r f) x = if x = r then (heapGet n x).map f else heapGet n x :=
  lookup_map_update n.cells r x f

theorem updateCell_endpoints (n : NICState) (r : Nat)
    (f : referencedNetworkEndpoint → referencedNetworkEndpoint) :
    (updateCell n r f).endpoints = n.endpoints := rfl

theorem updateCell_primary (n : NICState) (r : Nat)
    (f : referencedNetworkEndpoint → referencedNetworkEndpoint) :
    (updateCell n r f).primary = n.primary := rfl

theorem updateCell_mcastJoins (n : NICState) (r : Nat)
    (f : referencedNetworkEndpoint → referencedNetworkEndpoint) :
    (updateCell n r f).mcastJoins = n.mcastJoins := rfl

theorem updateCell_events (n : NICState) (r : Nat)
    (f : referencedNetworkEndpoint → referencedNetworkEndpoint) :
    (updateCell n r f).events = n.events := rfl

theorem incRefCell_endpoints (n : NICState) (r : Nat) :
    (incRefCell n r).endpoints = n.endpoints := rfl

theorem incRefCell_primary (n : NICState) (r : Nat) :
    (incRefCell n r).primary = n.primary := rfl

theorem incRefCell_mcastJoins (n : NICState) (r : Nat) :
    (incRefCell n r).mcastJoins = n.mcastJoins := rfl

theorem heapGet_incRefCell (n : NICState) (r x : Nat) :
    heapGet (incRefCell n r) x =
      if x = r then (heapGet n x).map (fun c => { c with refs := c.refs + 1 })
      else heapGet n x :=
  heapGet_updateCell n r x _

theorem mem_removeFirst {l : List Nat} {r x : Nat} (h : x ∈ removeFirst l r) : x ∈ l := by
  induction l with
  | nil => simp [removeFirst] at h
  | cons y ys ih =>
    by_cases hy : y = r
    · simp [removeFirst, hy] at h
      exact List.mem_cons_of_mem _ h
    · simp only [removeFirst, if_neg hy] at h
      rcases List.mem_cons.mp h with h | h
      · exact h ▸ List.mem_cons_self _ _
      · exact List.mem_cons_of_mem _ (ih h)

theorem not_mem_removeFirst_self {l : List Nat} {r : Nat} (h : List.count r l ≤ 1) :
    r ∉ removeFirst l r := by
  induction l with
  | nil => simp [removeFirst]
  | cons y ys ih =>
    by_cases hy : y = r
    · subst hy
      simp only [removeFirst, if_pos rfl]
      intro hmem
      have : 1 ≤ List.count y ys := List.one_le_count_iff.mpr hmem
      simp [List.count_cons_self] at h
      omega
    · simp only [removeFirst, if_neg hy]
      intro hmem
      rcases List.mem_cons.mp hmem with h1 | h1
      · exact hy h1.symm
      · have hc : List.count r ys ≤ 1 := by
          have := List.count_cons r y ys
          simp [beq_false_of_ne (fun hh => hy hh.symm)] at this
          omega
        exact ih hc h1

theorem eraseIdx_eq_removeFirst (l : List Nat) (r : Nat) :
    ∀ i, List.findIdx? (· = r) l = some i → l.eraseIdx i = removeFirst l r := by
  induction l with
  | nil => intro i h; simp [List.findIdx?] at h
  | cons y ys ih =>
    intro i h
    by_cases hy : y = r
    · have : List.findIdx? (· = r) (y :: ys) = some 0 := by
        simp [List.findIdx?_cons, hy]
      rw [this] at h
      cases h
      simp [List.eraseIdx, removeFirst, hy]
    · have hsucc : List.findIdx? (· = r) (y :: ys) = (List.findIdx? (· = r) ys).map Nat.succ := by
        simp [List.findIdx?_cons, hy, List.findIdx?_succ]
      rw [hsucc] at h
      cases hi : List.findIdx? (· = r) ys with
      | none => simp [hi] at h
      | some j =>
        rw [hi] at h
        simp at h
        subst h
        simp [List.eraseIdx, removeFirst, hy, ih j hi]

theorem getPrimary_setPrimary_self (n : NICState) (proto : Nat) (lst : List Nat) :
    getPrimary (setPrimary n proto lst) proto = lst := by
  simp [getPrimary, setPrimary, lookup_assocSet_self]

theorem getPrimary_setPrimary_ne (n : NICState) (proto proto' : Nat) (lst : List Nat)
    (h : proto' ≠ proto) : getPrimary (setPrimary n proto lst) proto' = getPrimary n proto' := by
  simp [getPrimary, setPrimary, lookup_assocSet_ne _ _ _ _ h]

theorem findIdx_none_not_mem {l : List Nat} {r : Nat}
    (h : List.findIdx? (· = r) l = none) : r ∉ l := by
  induction l with
  | nil => simp
  | cons y ys ih =>
    by_cases hy : y = r
    · simp [List.findIdx?_cons, hy] at h
    · simp only [List.findIdx?_cons, hy, decide_eq_true_eq, if_neg hy, List.findIdx?_succ] at h
      cases hys : List.findIdx? (· = r) ys with
      | some j => rw [hys] at h; simp at h
      | none =>
        intro hmem
        rcases List.mem_cons.mp hmem with hh | hh
        · exact hy hh.symm
        · exact ih hys hh

theorem findIdx_some_mem {l : List Nat} {r : Nat} {i : Nat}
    (h : List.findIdx? (· = r) l = some i) : r ∈ l := by
  induction l generalizing i with
  | nil => simp [List.findIdx?] at h
  | cons y ys ih =>
    by_cases hy : y = r
    · exact hy ▸ List.mem_cons_self _ _
    · simp only [List.findIdx?_cons, hy, decide_eq_true_eq, if_neg hy, List.findIdx?_succ] at h
      cases hys : List.findIdx? (· = r) ys with
      | none => rw [hys] at h; simp at h
      | some j => exact List.mem_cons_of_mem _ (ih hys)

theorem findIdx_zero_head {l : List Nat} {r : Nat}
    (h : List.findIdx? (· = r) l = some 0) : l.head? = some r := by
  cases l with
  | nil => simp [List.findIdx?] at h
  | cons y ys =>
    by_cases hy : y = r
    · simp [hy]
    · simp only [List.findIdx?_cons, hy, decide_eq_true_eq, if_neg hy, List.findIdx?_succ] at h
      cases hys : List.findIdx? (· = r) ys with
      | none => rw [hys] at h; simp at h
      | some j => rw [hys] at h; simp at h

theorem mem_foldr_append {α β : Type} (g : α → List β) (l : List α) (x : β) :
    x ∈ List.foldr (fun p acc => g p ++ acc) [] l ↔ ∃ p ∈ l, x ∈ g p := by
  induction l with
  | nil => simp
  | cons a as ih => simp [ih]

end Lemmas

/-- C4: for every address already present in the table, Add returns
DuplicateAddress whenever the requested kind is not permanent, and also
whenever the existing entry's kind is permanent or permanentTentative; in both
cases the state (table, primary list, existing entry) is returned unchanged. -/
theorem claim_C4 (stk : StackState) (n : NICState) (pa : ProtocolAddress)
    (peb : PrimaryEndpointBehavior) (kind : networkEndpointKind)
    (configType : networkEndpointConfigType) (deprecated : Bool) (rid : Nat)
    (h1 : List.lookup pa.address n.endpoints = some rid)
    (h2 : kind ≠ .permanent ∨ ∃ c, heapGet n rid = some c ∧
      (c.kind = .permanent ∨ c.kind = .permanentTentative)) :
    addAddressLocked stk pa peb kind configType deprecated n =
      some (.error .duplicateAddress, n) := by
  rcases h2 with hk | ⟨c, hc, hkind⟩
  · simp [addAddressLocked, addAddressDupCheck, h1, hk]
  · by_cases hk : kind = .permanent
    · subst hk
      rcases hkind with h | h <;>
        simp [addAddressLocked, addAddressDupCheck, h1, hc, h]
    · simp [addAddressLocked, addAddressDupCheck, h1, hk]

/-- Witness for C4: adding 10.0.0.2 (already permanent) again as permanent
fails with DuplicateAddress and leaves the state untouched. -/
theorem claim_C4_witness :
    addAddressLocked stk0 ⟨IPv4ProtocolNumber, addrB, 24⟩ .CanBePrimaryEndpoint
      .permanent .static false nicC3 = some (.error .duplicateAddress, nicC3) :=
  claim_C4 stk0 nicC3 ⟨IPv4ProtocolNumber, addrB, 24⟩ .CanBePrimaryEndpoint
    .permanent .static false 1 (by decide)
    (Or.inr ⟨permCell addrB, by decide, Or.inl (by decide)⟩)

/-- C5: source selection for remote 2001:db8::1 over the primary list
[fe80::1, 2001:db8::2 (deprecated), 2001:db8::3] returns the endpoint for
2001:db8::3 (cell 3) with its reference count incremented: the global-scope
candidates beat fe80::1 under the rule-2 comparator and the non-deprecated
2001:db8::3 beats 2001:db8::2 under rule 3. -/
theorem claim_C5 :
    primaryIPv6Endpoint nicC5 db8_1 = some (some 3, incRefCell nicC5 3) ∧
    (heapGet nicC5 3).map referencedNetworkEndpoint.addr = some db8_3 := by
  constructor
  · decide
  · decide

/-- C7: a packet delivered to a disabled interface increments only the
DisabledRx packet and byte counters (Rx is untouched), invokes no packet
observer, and leaves the interface state and all other counters unchanged. -/
theorem claim_C7 (stk : StackState) (protocol : Nat) (remote localAddr : Address)
    (pkt : Packet) (n : NICState) (ns : NICStatsM) (ss : StackStatsM)
    (h : n.enabled = false) :
    DeliverNetworkPacket stk protocol remote localAddr pkt n ns ss =
      some { nic := n,
             nicStats := { ns with disabledRxPackets := ns.disabledRxPackets + 1,
                                   disabledRxBytes := ns.disabledRxBytes + pkt.dataSize },
             stackStats := ss, observersInvoked := [], outcome := .disabledDrop } := by
  simp [DeliverNetworkPacket, h]

/-- Witness for C7 on a concrete disabled interface. -/
theorem claim_C7_witness :
    disabledNIC.enabled = false ∧
    DeliverNetworkPacket stk0 IPv4ProtocolNumber [9, 9, 9, 9, 9, 9] [] pktC2
        disabledNIC nicStats0 stackStats0 =
      some { nic := disabledNIC,
             nicStats := { nicStats0 with disabledRxPackets := 1, disabledRxBytes := 28 },
             stackStats := stackStats0, observersInvoked := [], outcome := .disabledDrop } :=
  ⟨by decide,
    claim_C7 stk0 IPv4ProtocolNumber [9, 9, 9, 9, 9, 9] [] pktC2 disabledNIC
      nicStats0 stackStats0 (by decide)⟩

/-- C9: the locked removal is a no-op when the table no longer maps the cell's
address to this very cell; removing a cell whose kind is still permanent
panics (modelled as the `none` result); and whenever the kind has left
permanent the panic branch is unreachable. -/
theorem claim_C9 (n : NICState) (rid : Nat) (c : referencedNetworkEndpoint)
    (h : heapGet n rid = some c) :
    (List.lookup c.addr n.endpoints ≠ some rid → removeEndpointLocked rid n = some n) ∧
    (List.lookup c.addr n.endpoints = some rid → c.kind = .permanent →
      removeEndpointLocked rid n = none) ∧
    (c.kind ≠ .permanent → (removeEndpointLocked rid n).isSome = true) := by
  refine ⟨?_, ?_, ?_⟩
  · intro hm
    simp [removeEndpointLocked, h, hm]
  · intro hm hk
    simp [removeEndpointLocked, h, hm, hk]
  · intro hk
    by_cases hm : List.lookup c.addr n.endpoints = some rid
    · simp [removeEndpointLocked, h, hm, hk]
    · simp [removeEndpointLocked, h, hm]

/-- Witness for C9: removing the still-permanent cell 0 of nicC2 panics. -/
theorem claim_C9_witness :
    heapGet nicC2 0 = some (permCell srcAddr) ∧ removeEndpointLocked 0 nicC2 = none :=
  ⟨by decide,
    (claim_C9 nicC2 0 (permCell srcAddr) (by decide)).2.1 (by decide) (by decide)⟩

/-- C10: when the table holds a permanentTentative entry with a positive
refcount and temporary-entry synthesis is permitted (mode flag set or address
in a configured range), getRefOrCreateTemp returns that very entry with its
refcount incremented — no nil result and no new temporary entry (table and
allocation counter unchanged). -/
theorem claim_C10 (stk : StackState) (protocol : Nat) (address : Address)
    (peb : PrimaryEndpointBehavior) (tempRef : getRefBehaviour) (n : NICState)
    (rid : Nat) (c : referencedNetworkEndpoint)
    (h1 : List.lookup address n.endpoints = some rid)
    (h2 : heapGet n rid = some c)
    (h3 : c.kind = .permanentTentative)
    (h4 : c.refs ≠ 0)
    (h5 : (selectedModeFlag n tempRef || addressInRanges n address) = true) :
    getRefOrCreateTemp stk protocol address peb tempRef n =
      some (some rid, incRefCell n rid) ∧
    (incRefCell n rid).endpoints = n.endpoints ∧
    (incRefCell n rid).nextCell = n.nextCell := by
  refine ⟨?_, rfl, rfl⟩
  simp [getRefOrCreateTemp, h1, h2, h3, h4, h5]

/-- Witness for C10: a promiscuous NIC returns its tentative fe80::1 entry
with the refcount bumped from 1 to 2. -/
theorem claim_C10_witness :
    getRefOrCreateTemp stk0 IPv6ProtocolNumber fe80_1 .CanBePrimaryEndpoint
      .promiscuous nicC10 = some (some 0, incRefCell nicC10 0) ∧
    (incRefCell nicC10 0).endpoints = nicC10.endpoints ∧
    (incRefCell nicC10 0).nextCell = nicC10.nextCell :=
  claim_C10 stk0 IPv6ProtocolNumber fe80_1 .CanBePrimaryEndpoint .promiscuous
    nicC10 0 (tentCell fe80_1) (by decide) (by decide) (by decide) (by decide) (by decide)

/-- Counterexample to C2: on a promiscuity-off, non-loopback NIC owning
10.0.0.9 permanently (refcount 2), delivering a packet whose source is
10.0.0.9 takes the handleLocal branch — and the `getRef` lookup it uses
increments the endpoint's reference count to 3 (and never releases it),
contradicting the claim that the lookup does not touch any reference count. -/
theorem claim_C2_counterexample :
    (DeliverNetworkPacket stk0 IPv4ProtocolNumber [9, 9, 9, 9, 9, 9] [] pktC2
        nicC2 nicStats0 stackStats0).map
        (fun r => (r.outcome, heapGet r.nic 0, r.stackStats.invalidSourceAddressesReceived)) =
      some (.invalidSource, some { permCell srcAddr with refs := 3 }, 1) ∧
    heapGet nicC2 0 = some { permCell srcAddr with refs := 2 } := by
  constructor
  · decide
  · decide

/-- C2 amended: the handleLocal source check uses `getRef` (the
promiscuous-flavoured `getRefOrCreateTemp`); when it finds a usable entry for
the source it increments that endpoint's reference count (which this path
never releases) and the packet is dropped with
InvalidSourceAddressesReceived counted; in promiscuous mode the same lookup
may even create a temporary entry for the source address. -/
theorem claim_C2_amended (stk : StackState) (protocol : Nat)
    (remote localAddr : Address) (pkt : Packet) (n : NICState) (ns : NICStatsM)
    (ss : StackStatsM) (info : NetProtoInfo) (rid : Nat)
    (c : referencedNetworkEndpoint)
    (hen : n.enabled = true)
    (hhl : stk.handleLocal = true)
    (hlb : n.loopback = false)
    (hpr : List.lookup protocol stk.networkProtocols = some info)
    (hlen : ¬ pkt.first.length < info.minimumPacketSize)
    (hsrc : List.lookup (info.parseAddresses pkt.first).1 n.endpoints = some rid)
    (hc : heapGet n rid = some c)
    (hk : c.kind = .permanent)
    (hr : c.refs ≠ 0) :
    (DeliverNetworkPacket stk protocol remote localAddr pkt n ns ss).map
        (fun r => (r.outcome, r.nic)) = some (.invalidSource, incRefCell n rid) ∧
    heapGet (incRefCell n rid) rid = some { c with refs := c.refs + 1 } := by
  constructor
  · simp [DeliverNetworkPacket, hen, hhl, hlb, hpr, hlen, getRef, getRefOrCreateTemp,
      hsrc, hc, hk, hr]
  · simp [incRefCell, heapGet_updateCell, hc]

/-- Witness for the amended C2 at the concrete counterexample state. -/
theorem claim_C2_amended_witness :
    (DeliverNetworkPacket stk0 IPv4ProtocolNumber [9, 9, 9, 9, 9, 9] [] pktC2
        nicC2 nicStats0 stackStats0).map
        (fun r => (r.outcome, r.nic)) = some (.invalidSource, incRefCell nicC2 0) ∧
    heapGet (incRefCell nicC2 0) 0 = some { permCell srcAddr with refs := 3 } :=
  claim_C2_amended stk0 IPv4ProtocolNumber [9, 9, 9, 9, 9, 9] [] pktC2 nicC2
    nicStats0 stackStats0 ipv4Info 0 (permCell srcAddr) (by decide) (by decide)
    (by decide) rfl (by decide) (by decide) (by decide) (by decide) (by decide)

/-- Counterexample to C3: with the temporary entry for 10.0.0.1 at the head of
the primary list [0, 1], promoting it with Add(10.0.0.1, permanent,
CanBePrimaryEndpoint) leaves the list [0, 1] — the entry keeps its position —
whereas a fresh Add into the table without it appends at the tail ([1, 2]),
so the promoted position is not what a fresh Add would have produced. -/
theorem claim_C3_counterexample :
    (addAddressLocked stk0 ⟨IPv4ProtocolNumber, addrA, 24⟩ .CanBePrimaryEndpoint
        .permanent .static false nicC3).map
        (fun p => (p.1.toOption, getPrimary p.2 IPv4ProtocolNumber)) = some (some 0, [0, 1]) ∧
    (addAddressLocked stk0 ⟨IPv4ProtocolNumber, addrA, 24⟩ .CanBePrimaryEndpoint
        .permanent .static false nicC3b).map
        (fun p => getPrimary p.2 IPv4ProtocolNumber) = some [1, 2] ∧
    ([0, 1] : List Nat) ≠ [1, 0] := by
  refine ⟨by decide, by decide, by decide⟩

/-- C3 amended: promoting a temporary entry with Add(A, permanent, peb)
returns the same cell with kind permanent and deprecated/configType updated;
its primary-list position is: for NeverPrimaryEndpoint absent, for
FirstPrimaryEndpoint the head, and for CanBePrimaryEndpoint its previous
position is kept when the entry is already in the list (it is appended at the
tail only when absent). -/
theorem claim_C3_amended (stk : StackState) (n : NICState) (a : Address)
    (proto plen : Nat) (ct : networkEndpointConfigType) (dep : Bool)
    (peb : PrimaryEndpointBehavior) (rid : Nat) (c : referencedNetworkEndpoint)
    (h1 : List.lookup a n.endpoints = some rid)
    (h2 : heapGet n rid = some c)
    (h3 : c.kind = .temporary)
    (h4 : c.refs ≠ 0)
    (h5 : List.count rid (getPrimary n c.protocol) ≤ 1) :
    ∃ n', addAddressLocked stk ⟨proto, a, plen⟩ peb .permanent ct dep n =
        some (.ok rid, n') ∧
      heapGet n' rid = some { c with kind := .permanent, refs := c.refs + 1,
                                     configType := ct, deprecated := dep } ∧
      n'.endpoints = n.endpoints ∧
      (peb = .CanBePrimaryEndpoint → rid ∈ getPrimary n c.protocol →
        ∀ pr, getPrimary n' pr = getPrimary n pr) ∧
      (peb = .CanBePrimaryEndpoint → rid ∉ getPrimary n c.protocol →
        getPrimary n' c.protocol = getPrimary n c.protocol ++ [rid]) ∧
      (peb = .FirstPrimaryEndpoint → (getPrimary n' c.protocol).head? = some rid) ∧
      (peb = .NeverPrimaryEndpoint → rid ∉ getPrimary n' c.protocol) := by
  have hcell : ∀ n'' : NICState, n''.cells =
      (updateCell (incRefCell n rid) rid fun x =>
        { x with kind := .permanent, deprecated := dep, configType := ct }).cells →
      heapGet n'' rid = some { c with kind := .permanent, refs := c.refs + 1,
                                      configType := ct, deprecated := dep } := by
    intro n'' hcells
    show List.lookup rid n''.cells = _
    rw [hcells]
    show heapGet (updateCell (incRefCell n rid) rid fun x =>
      { x with kind := .permanent, deprecated := dep, configType := ct }) rid = _
    rw [heapGet_updateCell, if_pos rfl, incRefCell, heapGet_updateCell, if_pos rfl, h2]
    rfl
  have hgp : getPrimary (updateCell (incRefCell n rid) rid fun x =>
      { x with kind := .permanent, deprecated := dep, configType := ct }) c.protocol =
      getPrimary n c.protocol := rfl
  cases hidx : List.findIdx? (· = rid) (getPrimary n c.protocol) with
  | none =>
    have hnm := findIdx_none_not_mem hidx
    cases peb with
    | CanBePrimaryEndpoint =>
      refine ⟨setPrimary (updateCell (incRefCell n rid) rid fun x =>
          { x with kind := .permanent, deprecated := dep, configType := ct })
          c.protocol (getPrimary n c.protocol ++ [rid]), ?_, hcell _ rfl, rfl, ?_, ?_, ?_, ?_⟩
      · simp [addAddressLocked, addAddressDupCheck, h1, h2, h3, h4, hgp, hidx,
          insertPrimaryEndpointLocked]
      · intro _ hm; exact absurd hm hnm
      · intro _ _; exact getPrimary_setPrimary_self _ _ _
      · intro h; exact absurd h (by simp)
      · intro h; exact absurd h (by simp)
    | FirstPrimaryEndpoint =>
      refine ⟨setPrimary (updateCell (incRefCell n rid) rid fun x =>
          { x with kind := .permanent, deprecated := dep, configType := ct })
          c.protocol (rid :: getPrimary n c.protocol), ?_, hcell _ rfl, rfl, ?_, ?_, ?_, ?_⟩
      · simp [addAddressLocked, addAddressDupCheck, h1, h2, h3, h4, hgp, hidx,
          insertPrimaryEndpointLocked]
      · intro h; exact absurd h (by simp)
      · intro h; exact absurd h (by simp)
      · intro _; rw [getPrimary_setPrimary_self]; rfl
      · intro h; exact absurd h (by simp)
    | NeverPrimaryEndpoint =>
      refine ⟨updateCell (incRefCell n rid) rid fun x =>
          { x with kind := .permanent, deprecated := dep, configType := ct },
          ?_, hcell _ rfl, rfl, ?_, ?_, ?_, ?_⟩
      · simp [addAddressLocked, addAddressDupCheck, h1, h2, h3, h4, hgp, hidx,
          insertPrimaryEndpointLocked]
      · intro h; exact absurd h (by simp)
      · intro h; exact absurd h (by simp)
      · intro h; exact absurd h (by simp)
      · intro _; rw [hgp]; exact hnm
  | some i =>
    have hmem := findIdx_some_mem hidx
    cases peb with
    | CanBePrimaryEndpoint =>
      refine ⟨updateCell (incRefCell n rid) rid fun x =>
          { x with kind := .permanent, deprecated := dep, configType := ct },
          ?_, hcell _ rfl, rfl, ?_, ?_, ?_, ?_⟩
      · simp [addAddressLocked, addAddressDupCheck, h1, h2, h3, h4, hgp, hidx]
      · intro _ _ pr; rfl
      · intro _ hm; exact absurd hmem hm
      · intro h; exact absurd h (by simp)
      · intro h; exact absurd h (by simp)
    | FirstPrimaryEndpoint =>
      by_cases hi : i = 0
      · subst hi
        refine ⟨updateCell (incRefCell n rid) rid fun x =>
            { x with kind := .permanent, deprecated := dep, configType := ct },
            ?_, hcell _ rfl, rfl, ?_, ?_, ?_, ?_⟩
        · simp [addAddressLocked, addAddressDupCheck, h1, h2, h3, h4, hgp, hidx]
        · intro h; exact absurd h (by simp)
        · intro h; exact absurd h (by simp)
        · intro _; rw [hgp]; exact findIdx_zero_head hidx
        · intro h; exact absurd h (by simp)
      · refine ⟨setPrimary (setPrimary (updateCell (incRefCell n rid) rid fun x =>
            { x with kind := .permanent, deprecated := dep, configType := ct })
            c.protocol ((getPrimary n c.protocol).eraseIdx i)) c.protocol
            (rid :: (getPrimary n c.protocol).eraseIdx i),
            ?_, hcell _ rfl, rfl, ?_, ?_, ?_, ?_⟩
        · simp [addAddressLocked, addAddressDupCheck, h1, h2, h3, h4, hgp, hidx, hi,
            insertPrimaryEndpointLocked, getPrimary_setPrimary_self]
        · intro h; exact absurd h (by simp)
        · intro h; exact absurd h (by simp)
        · intro _; rw [getPrimary_setPrimary_self]; rfl
        · intro h; exact absurd h (by simp)
    | NeverPrimaryEndpoint =>
      refine ⟨setPrimary (updateCell (incRefCell n rid) rid fun x =>
          { x with kind := .permanent, deprecated := dep, configType := ct })
          c.protocol ((getPrimary n c.protocol).eraseIdx i),
          ?_, hcell _ rfl, rfl, ?_, ?_, ?_, ?_⟩
      · simp [addAddressLocked, addAddressDupCheck, h1, h2, h3, h4, hgp, hidx]
      · intro h; exact absurd h (by simp)
      · intro h; exact absurd h (by simp)
      · intro h; exact absurd h (by simp)
      · intro _
        rw [getPrimary_setPrimary_self]
        rw [eraseIdx_eq_removeFirst (getPrimary n c.protocol) rid i hidx]
        exact not_mem_removeFirst_self h5

/-- Witness for the amended C3: promoting 10.0.0.1 with NeverPrimaryEndpoint
on nicC3 yields the same cell (id 0), promoted, and absent from the primary
list. -/
theorem claim_C3_amended_witness :
    ∃ n', addAddressLocked stk0 ⟨IPv4ProtocolNumber, addrA, 24⟩ .NeverPrimaryEndpoint
        .permanent .slaac true nicC3 = some (.ok 0, n') ∧
      heapGet n' 0 = some { tempCell addrA with kind := .permanent, refs := 2,
                                                configType := .slaac, deprecated := true } ∧
      0 ∉ getPrimary n' IPv4ProtocolNumber := by
  obtain ⟨n', he, hc, _hep, _h1, _h2, _h3, hnp⟩ :=
    claim_C3_amended stk0 nicC3 addrA IPv4ProtocolNumber 24 .slaac true
      .NeverPrimaryEndpoint 0 (tempCell addrA) (by decide) (by decide) (by decide)
      (by decide) (by decide)
  exact ⟨n', he, by simpa using hc, hnp rfl⟩

/-- Auxiliary characterisation of the `primaryAddress` walk: its result is
either the zero value or the address/prefix of a permanent cell drawn from the
protocol's primary list. -/
theorem primaryAddressLoop_spec (n : NICState) (lst0 : List Nat) :
    ∀ (l : List Nat) (acc : Option referencedNetworkEndpoint),
      (∀ x ∈ l, x ∈ lst0) →
      (∀ d, acc = some d → ∃ rid ∈ lst0, heapGet n rid = some d ∧ d.kind = .permanent) →
      primaryAddressLoop n acc l = ([], 0) ∨
        ∃ rid c, rid ∈ lst0 ∧ heapGet n rid = some c ∧ c.kind = .permanent ∧
          primaryAddressLoop n acc l = (c.addr, c.prefixLen) := by
  intro l
  induction l with
  | nil =>
    intro acc _ hacc
    cases ha : acc with
    | none => left; simp [primaryAddressLoop, ha]
    | some d =>
      obtain ⟨rid, hmem, hg, hk⟩ := hacc d ha
      right
      exact ⟨rid, d, hmem, hg, hk, by simp [primaryAddressLoop]⟩
  | cons rid rest ih =>
    intro acc hsub hacc
    have hsub' : ∀ x ∈ rest, x ∈ lst0 := fun x hx => hsub x (List.mem_cons_of_mem _ hx)
    cases hg : heapGet n rid with
    | none => simpa [primaryAddressLoop, hg] using ih acc hsub' hacc
    | some c =>
      cases hk : c.kind with
      | permanentTentative => simpa [primaryAddressLoop, hg, hk] using ih acc hsub' hacc
      | permanentExpired => simpa [primaryAddressLoop, hg, hk] using ih acc hsub' hacc
      | temporary => simpa [primaryAddressLoop, hg, hk] using ih acc hsub' hacc
      | permanent =>
        by_cases hd : c.deprecated
        · cases ha : acc with
          | none =>
            have hacc' : ∀ d, (some c : Option referencedNetworkEndpoint) = some d →
                ∃ r ∈ lst0, heapGet n r = some d ∧ d.kind = .permanent := by
              intro d hde
              cases hde
              exact ⟨rid, hsub rid (List.mem_cons_self _ _), hg, hk⟩
            simpa [primaryAddressLoop, hg, hk, hd] using ih (some c) hsub' hacc'
          | some d =>
            have hacc' : ∀ e, (some d : Option referencedNetworkEndpoint) = some e →
                ∃ r ∈ lst0, heapGet n r = some e ∧ e.kind = .permanent := by
              intro e hde
              cases hde
              exact hacc d ha
            simpa [primaryAddressLoop, hg, hk, hd] using ih (some d) hsub' hacc'
        · right
          refine ⟨rid, c, hsub rid (List.mem_cons_self _ _), hg, hk, ?_⟩
          simp [primaryAddressLoop, hg, hk, hd]

/-- C6: for every table state, AllAddresses returns no permanentExpired or
temporary entry but does return permanentTentative entries, while
PrimaryAddresses and the single-result primaryAddress additionally return no
permanentTentative entry (every result of theirs is backed by a permanent
cell). -/
theorem claim_C6 (n : NICState) :
    (∀ pa ∈ AllAddresses n, ∃ rid c, (pa.address, rid) ∈ n.endpoints ∧
      heapGet n rid = some c ∧ c.kind ≠ .permanentExpired ∧ c.kind ≠ .temporary) ∧
    (∀ a rid c, (a, rid) ∈ n.endpoints → heapGet n rid = some c →
      c.kind = .permanentTentative →
      (⟨c.protocol, a, c.prefixLen⟩ : ProtocolAddress) ∈ AllAddresses n) ∧
    (∀ pa ∈ PrimaryAddresses n, ∃ pr lst rid c, (pr, lst) ∈ n.primary ∧ rid ∈ lst ∧
      heapGet n rid = some c ∧ c.kind ≠ .permanentExpired ∧ c.kind ≠ .temporary ∧
      c.kind ≠ .permanentTentative) ∧
    (∀ proto, primaryAddress n proto = ([], 0) ∨
      ∃ lst rid c, List.lookup proto n.primary = some lst ∧ rid ∈ lst ∧
        heapGet n rid = some c ∧ c.kind = .permanent ∧
        primaryAddress n proto = (c.addr, c.prefixLen)) := by
  refine ⟨?_, ?_, ?_, ?_⟩
  · intro pa hpa
    obtain ⟨p, hp, hf⟩ := List.mem_filterMap.mp hpa
    cases hg : heapGet n p.2 with
    | none => simp [AllAddresses, hg] at hf
    | some c =>
      simp only [hg] at hf
      cases hk : c.kind with
      | permanentExpired => simp [hk] at hf
      | temporary => simp [hk] at hf
      | permanentTentative =>
        simp only [hk, Option.some.injEq] at hf
        refine ⟨p.2, c, ?_, hg, by simp [hk], by simp [hk]⟩
        rw [← hf]
        exact hp
      | permanent =>
        simp only [hk, Option.some.injEq] at hf
        refine ⟨p.2, c, ?_, hg, by simp [hk], by simp [hk]⟩
        rw [← hf]
        exact hp
  · intro a rid c hmem hg hk
    refine List.mem_filterMap.mpr ⟨(a, rid), hmem, ?_⟩
    simp [hg, hk]
  · intro pa hpa
    rw [PrimaryAddresses, mem_foldr_append] at hpa
    obtain ⟨p, hp, hin⟩ := hpa
    obtain ⟨rid, hrid, hf⟩ := List.mem_filterMap.mp hin
    cases hg : heapGet n rid with
    | none => simp [hg] at hf
    | some c =>
      simp only [hg] at hf
      cases hk : c.kind with
      | permanentExpired => simp [hk] at hf
      | temporary => simp [hk] at hf
      | permanentTentative => simp [hk] at hf
      | permanent =>
        exact ⟨p.1, p.2, rid, c, hp, hrid, hg, by simp [hk], by simp [hk], by simp [hk]⟩
  · intro proto
    cases hl : List.lookup proto n.primary with
    | none => left; simp [primaryAddress, hl]
    | some lst =>
      have := primaryAddressLoop_spec n lst lst none (fun x hx => hx) (by simp)
      rcases this with h | ⟨rid, c, hmem, hg, hk, hres⟩
      · left; simp [primaryAddress, hl, h]
      · right
        exact ⟨lst, rid, c, rfl, hmem, hg, hk, by simp [primaryAddress, hl, hres]⟩

/-- Witness for C6: on nicC10 the tentative fe80::1 entry is reported by
AllAddresses. -/
theorem claim_C6_witness :
    (⟨IPv6ProtocolNumber, fe80_1, 64⟩ : ProtocolAddress) ∈ AllAddresses nicC10 :=
  (claim_C6 nicC10).2.1 fe80_1 0 (tentCell fe80_1) (by decide) (by decide) (by decide)

theorem lookup_none_of_forall_ne {α β : Type} [BEq α] [LawfulBEq α] (l : List (α × β)) (k : α)
    (h : ∀ p ∈ l, p.1 ≠ k) : List.lookup k l = none := by
  induction l with
  | nil => rfl
  | cons p rest ih =>
    have hb : (k == p.1) = false :=
      beq_false_of_ne fun hh => h p (List.mem_cons_self _ _) hh.symm
    simp only [List.lookup, hb]
    exact ih fun q hq => h q (List.mem_cons_of_mem _ hq)

/-- The first join of a group with no table entry: the backing permanent
static NeverPrimary endpoint is created with the protocol's default prefix
length and the count becomes 1. -/
theorem joinGroup_fresh (stk : StackState) (p : Nat) (a : Address)
    (info : NetProtoInfo) (n0 : NICState)
    (hreg : List.lookup p stk.networkProtocols = some info)
    (hend : List.lookup a n0.endpoints = none)
    (hcnt : joinsCount n0 a = 0)
    (hu : IsV6UnicastAddress a = false) :
    joinGroupLocked stk p a n0 = some (none,
      { n0 with
          cells := n0.cells ++ [(n0.nextCell,
            { addr := a, prefixLen := info.defaultPrefixLen, protocol := p, refs := 1,
              kind := .permanent, configType := .static, deprecated := false })],
          endpoints := assocSet n0.endpoints a n0.nextCell,
          mcastJoins := assocSet n0.mcastJoins a 1,
          nextCell := n0.nextCell + 1 }) := by
  simp [joinGroupLocked, hcnt, hreg, addAddressLocked, addAddressDupCheck, hend, hu,
    addAddressFreshCore, insertPrimaryEndpointLocked]

/-- Joining an already-joined group only bumps the count, `m` times over. -/
theorem joinN_from (stk : StackState) (p : Nat) (a : Address) :
    ∀ (m : Nat) (S : NICState) (M : List (Address × Nat)) (j : Nat),
      S.mcastJoins = assocSet M a j → j ≠ 0 →
      joinN stk p a m S = some (none, { S with mcastJoins := assocSet M a (j + m) }) := by
  intro m
  induction m with
  | zero =>
    intro S M j hS hj
    simp [joinN, ← hS]
  | succ m ih =>
    intro S M j hS hj
    have hcount : joinsCount S a = j := by
      rw [joinsCount, hS, lookup_assocSet_self]
      rfl
    have h1 : joinGroupLocked stk p a S =
        some (none, { S with mcastJoins := assocSet S.mcastJoins a (j + 1) }) := by
      simp [joinGroupLocked, hcount, hj]
    have h2 : ({ S with mcastJoins := assocSet S.mcastJoins a (j + 1)} : NICState).mcastJoins =
        assocSet M a (j + 1) := by
      show assocSet S.mcastJoins a (j + 1) = _
      rw [hS, assocSet_assocSet]
    have hstep : joinN stk p a (m + 1) S =
        match joinGroupLocked stk p a S with
        | none => none
        | some (some e, n1) => some (some e, n1)
        | some (none, n1) => joinN stk p a m n1 := rfl
    rw [hstep, h1]
    have h3 := ih { S with mcastJoins := assocSet S.mcastJoins a (j + 1) } M (j + 1) h2
      (Nat.succ_ne_zero j)
    have harith : j + 1 + m = j + (m + 1) := by omega
    rw [harith] at h3
    exact h3

/-- Leaving a group whose count is at least 2 only decrements the count. -/
theorem leaveGroup_count_ge2 (a : Address) (S : NICState) (M : List (Address × Nat))
    (j : Nat) (hS : S.mcastJoins = assocSet M a (j + 2)) :
    leaveGroupLocked a S = some (none, { S with mcastJoins := assocSet M a (j + 1) }) := by
  have hcount : joinsCount S a = j + 2 := by
    rw [joinsCount, hS, lookup_assocSet_self]
    rfl
  have h0 : ¬ (j + 2 = 0) := by omega
  have h1 : ¬ (j + 2 = 1) := by omega
  have h2 : j + 2 - 1 = j + 1 := by omega
  simp [leaveGroupLocked, hcount, h0, h1, h2, hS, assocSet_assocSet]

/-- Leaving a group with no joins fails with BadLocalAddress and changes
nothing. -/
theorem leaveGroup_count_zero (a : Address) (S : NICState)
    (h : joinsCount S a = 0) :
    leaveGroupLocked a S = some (some .badLocalAddress, S) := by
  simp [leaveGroupLocked, h]

/-- Peeling the count-only leaves: `m + 1` leaves from count `m + 1` equal one
leave from count 1. -/
theorem leaveN_peel (a : Address) :
    ∀ (m : Nat) (S : NICState) (M : List (Address × Nat)),
      S.mcastJoins = assocSet M a (m + 1) →
      leaveN a (m + 1) S = leaveN a 1 { S with mcastJoins := assocSet M a 1 } := by
  intro m
  induction m with
  | zero =>
    intro S M hS
    have hS' : S.mcastJoins = assocSet M a 1 := hS
    rw [← hS']
  | succ m ih =>
    intro S M hS
    have hS' : S.mcastJoins = assocSet M a (m + 2) := hS
    have h1 := leaveGroup_count_ge2 a S M m hS'
    have hstep : leaveN a (m + 1 + 1) S =
        match leaveGroupLocked a S with
        | none => none
        | some (some e, n1) => some (some e, n1)
        | some (none, n1) => leaveN a (m + 1) n1 := rfl
    rw [hstep, h1]
    exact ih { S with mcastJoins := assocSet M a (m + 1) } M rfl

/-- The final leave (count 1) of a group backed by a permanent entry whose
bias is its only reference: the permanent removal path expires and deletes
the backing entry, and the join count returns to zero. -/
theorem leaveGroup_one (a : Address) (S : NICState) (rid : Nat)
    (c : referencedNetworkEndpoint)
    (hcnt : joinsCount S a = 1)
    (hlook : List.lookup a S.endpoints = some rid)
    (hg : heapGet S rid = some c)
    (haddr : c.addr = a)
    (hrefs : c.refs = 1)
    (hkind : c.kind = .permanent)
    (hv6 : (c.protocol == IPv6ProtocolNumber && IsV6UnicastAddress a) = false) :
    ∃ S', leaveGroupLocked a S = some (none, S') ∧
      S'.endpoints = assocDelete S.endpoints a ∧
      S'.mcastJoins = assocSet S.mcastJoins a 0 := by
  refine ⟨{ updateCell (updateCell S rid fun x => { x with kind := .permanentExpired }) rid
      (fun x => { x with refs := x.refs - 1 }) with
      endpoints := assocDelete S.endpoints a,
      primary := assocSet S.primary c.protocol
        (removeFirst (getPrimary S c.protocol) rid),
      events := S.events ++ [.closeEndpoint rid],
      mcastJoins := assocSet S.mcastJoins a 0 }, ?_, rfl, rfl⟩
  simp [leaveGroupLocked, hcnt, removePermanentAddressLocked, hlook, hg, hkind, hv6,
    decRefLocked, heapGet_updateCell, hrefs, haddr, removeEndpointLocked, getPrimary,
    setPrimary, updateCell_endpoints, updateCell_primary, updateCell_mcastJoins,
    updateCell_events]

/-- C8: starting from a state with no entry and join count zero for a
(non-IPv6-unicast, e.g. multicast) address, n joins followed by n leaves
(n ≥ 1) return the join count to zero and remove the backing table entry;
one further leave fails with BadLocalAddress and changes nothing. -/
theorem claim_C8 (stk : StackState) (n0 : NICState) (p : Nat) (a : Address)
    (info : NetProtoInfo) (k : Nat)
    (hreg : List.lookup p stk.networkProtocols = some info)
    (hend : List.lookup a n0.endpoints = none)
    (hcnt : joinsCount n0 a = 0)
    (hu : IsV6UnicastAddress a = false)
    (hfresh : ∀ pc ∈ n0.cells, pc.1 < n0.nextCell)
    (hk : 1 ≤ k) :
    ∃ n1 n2, joinN stk p a k n0 = some (none, n1) ∧
      leaveN a k n1 = some (none, n2) ∧
      List.lookup a n2.endpoints = none ∧
      joinsCount n2 a = 0 ∧
      leaveGroupLocked a n2 = some (some .badLocalAddress, n2) := by
  obtain ⟨m, rfl⟩ : ∃ m, k = m + 1 := ⟨k - 1, by omega⟩
  have h1 := joinGroup_fresh stk p a info n0 hreg hend hcnt hu
  have hj2 := joinN_from stk p a m
    { n0 with
        cells := n0.cells ++ [(n0.nextCell,
          { addr := a, prefixLen := info.defaultPrefixLen, protocol := p, refs := 1,
            kind := .permanent, configType := .static, deprecated := false })],
        endpoints := assocSet n0.endpoints a n0.nextCell,
        mcastJoins := assocSet n0.mcastJoins a 1,
        nextCell := n0.nextCell + 1 }
    n0.mcastJoins 1 rfl one_ne_zero
  have hjoin : joinN stk p a (m + 1) n0 = some (none,
      { n0 with
          cells := n0.cells ++ [(n0.nextCell,
            { addr := a, prefixLen := info.defaultPrefixLen, protocol := p, refs := 1,
              kind := .permanent, configType := .static, deprecated := false })],
          endpoints := assocSet n0.endpoints a n0.nextCell,
          mcastJoins := assocSet n0.mcastJoins a (1 + m),
          nextCell := n0.nextCell + 1 }) := by
    have hstep : joinN stk p a (m + 1) n0 =
        match joinGroupLocked stk p a n0 with
        | none => none
        | some (some e, n1) => some (some e, n1)
        | some (none, n1) => joinN stk p a m n1 := rfl
    rw [hstep, h1]
    exact hj2
  have hpeel := leaveN_peel a m
    { n0 with
        cells := n0.cells ++ [(n0.nextCell,
          { addr := a, prefixLen := info.defaultPrefixLen, protocol := p, refs := 1,
            kind := .permanent, configType := .static, deprecated := false })],
        endpoints := assocSet n0.endpoints a n0.nextCell,
        mcastJoins := assocSet n0.mcastJoins a (1 + m),
        nextCell := n0.nextCell + 1 }
    n0.mcastJoins (by show assocSet n0.mcastJoins a (1 + m) = _; rw [Nat.add_comm])
  have hrid : List.lookup n0.nextCell n0.cells = none :=
    lookup_none_of_forall_ne _ _ fun pc hpc => Nat.ne_of_lt (hfresh pc hpc)
  have hg : heapGet
      { n0 with
          cells := n0.cells ++ [(n0.nextCell,
            { addr := a, prefixLen := info.defaultPrefixLen, protocol := p, refs := 1,
              kind := .permanent, configType := .static, deprecated := false })],
          endpoints := assocSet n0.endpoints a n0.nextCell,
          mcastJoins := assocSet n0.mcastJoins a 1,
          nextCell := n0.nextCell + 1 } n0.nextCell =
      some { addr := a, prefixLen := info.defaultPrefixLen, protocol := p, refs := 1,
             kind := .permanent, configType := .static, deprecated := false } := by
    show List.lookup n0.nextCell (n0.cells ++ [(n0.nextCell,
      ({ addr := a, prefixLen := info.defaultPrefixLen, protocol := p, refs := 1,
         kind := .permanent, configType := .static, deprecated := false } :
        referencedNetworkEndpoint))]) = _
    rw [lookup_append_right _ _ _ hrid]
    simp [List.lookup]
  have hcnt1 : joinsCount
      { n0 with
          cells := n0.cells ++ [(n0.nextCell,
            { addr := a, prefixLen := info.defaultPrefixLen, protocol := p, refs := 1,
              kind := .permanent, configType := .static, deprecated := false })],
          endpoints := assocSet n0.endpoints a n0.nextCell,
          mcastJoins := assocSet n0.mcastJoins a 1,
          nextCell := n0.nextCell + 1 } a = 1 := by
    show (List.lookup a (assocSet n0.mcastJoins a 1)).getD 0 = 1
    rw [lookup_assocSet_self]
    rfl
  have hlook1 : List.lookup a
      ({ n0 with
          cells := n0.cells ++ [(n0.nextCell,
            { addr := a, prefixLen := info.defaultPrefixLen, protocol := p, refs := 1,
              kind := .permanent, configType := .static, deprecated := false })],
          endpoints := assocSet n0.endpoints a n0.nextCell,
          mcastJoins := assocSet n0.mcastJoins a 1,
          nextCell := n0.nextCell + 1 } : NICState).endpoints = some n0.nextCell := by
    show List.lookup a (assocSet n0.endpoints a n0.nextCell) = _
    rw [lookup_assocSet_self]
  obtain ⟨S', hS'eq, hS'end, hS'mc⟩ := leaveGroup_one a _ n0.nextCell
    { addr := a, prefixLen := info.defaultPrefixLen, protocol := p, refs := 1,
      kind := .permanent, configType := .static, deprecated := false }
    hcnt1 hlook1 hg rfl rfl rfl (by simp [hu])
  have hend2 : List.lookup a S'.endpoints = none := by
    rw [hS'end]
    exact lookup_assocDelete_self _ _
  have hmc2 : joinsCount S' a = 0 := by
    rw [joinsCount, hS'mc, lookup_assocSet_self]
    rfl
  have hfin : leaveN a 1
      { n0 with
          cells := n0.cells ++ [(n0.nextCell,
            { addr := a, prefixLen := info.defaultPrefixLen, protocol := p, refs := 1,
              kind := .permanent, configType := .static, deprecated := false })],
          endpoints := assocSet n0.endpoints a n0.nextCell,
          mcastJoins := assocSet n0.mcastJoins a 1,
          nextCell := n0.nextCell + 1 } = some (none, S') := by
    have hstep : leaveN a 1
        { n0 with
            cells := n0.cells ++ [(n0.nextCell,
              { addr := a, prefixLen := info.defaultPrefixLen, protocol := p, refs := 1,
                kind := .permanent, configType := .static, deprecated := false })],
            endpoints := assocSet n0.endpoints a n0.nextCell,
            mcastJoins := assocSet n0.mcastJoins a 1,
            nextCell := n0.nextCell + 1 } =
        match leaveGroupLocked a
          { n0 with
              cells := n0.cells ++ [(n0.nextCell,
                { addr := a, prefixLen := info.defaultPrefixLen, protocol := p, refs := 1,
                  kind := .permanent, configType := .static, deprecated := false })],
              endpoints := assocSet n0.endpoints a n0.nextCell,
              mcastJoins := assocSet n0.mcastJoins a 1,
              nextCell := n0.nextCell + 1 } with
        | none => none
        | some (some e, n1) => some (some e, n1)
        | some (none, n1) => leaveN a 0 n1 := rfl
    rw [hstep, hS'eq]
    rfl
  refine ⟨_, S', hjoin, ?_, hend2, hmc2, leaveGroup_count_zero a S' hmc2⟩
  rw [hpeel]
  exact hfin

/-- Witness for C8: three joins and three leaves of 224.0.0.251 on an empty
enabled NIC. -/
theorem claim_C8_witness :
    ∃ n1 n2, joinN stk0 IPv4ProtocolNumber mcastAddr 3 nicC8 = some (none, n1) ∧
      leaveN mcastAddr 3 n1 = some (none, n2) ∧
      List.lookup mcastAddr n2.endpoints = none ∧
      joinsCount n2 mcastAddr = 0 ∧
      leaveGroupLocked mcastAddr n2 = some (some .badLocalAddress, n2) :=
  claim_C8 stk0 nicC8 IPv4ProtocolNumber mcastAddr ipv4Info 3 rfl (by decide)
    (by decide) (by decide) (by decide) (by decide)

theorem mem_of_lookup {α β : Type} [BEq α] [LawfulBEq α] {l : List (α × β)} {k : α} {v : β}
    (h : List.lookup k l = some v) : (k, v) ∈ l := by
  induction l with
  | nil => simp [List.lookup] at h
  | cons p rest ih =>
    cases hb : (k == p.1) with
    | false =>
      simp only [List.lookup, hb] at h
      exact List.mem_cons_of_mem _ (ih h)
    | true =>
      simp only [List.lookup, hb, Option.some.injEq] at h
      have hk : k = p.1 := eq_of_beq hb
      rw [hk, ← h]
      exact List.mem_cons_self _ _

/-- The DAD walk of `enable` only flips kinds of IPv6-unicast-addressed cells
and records events: the table, primary lists and join counts are untouched,
any cell whose address is not IPv6 unicast is preserved exactly, and no cell
disappears. -/
theorem dadFold_pres (cid : Nat) (C : referencedNetworkEndpoint)
    (hub : IsV6UnicastAddress C.addr = false) :
    ∀ (l : List (Address × Nat)) (S : NICState), heapGet S cid = some C →
      (List.foldl (fun acc p => enableDadStep acc p.2) S l).endpoints = S.endpoints ∧
      (List.foldl (fun acc p => enableDadStep acc p.2) S l).primary = S.primary ∧
      (List.foldl (fun acc p => enableDadStep acc p.2) S l).mcastJoins = S.mcastJoins ∧
      (List.foldl (fun acc p => enableDadStep acc p.2) S l).nextCell = S.nextCell ∧
      heapGet (List.foldl (fun acc p => enableDadStep acc p.2) S l) cid = some C ∧
      ∀ q, (heapGet S q).isSome = true →
        (heapGet (List.foldl (fun acc p => enableDadStep acc p.2) S l) q).isSome = true := by
  intro l
  induction l with
  | nil => intro S hc; exact ⟨rfl, rfl, rfl, rfl, hc, fun q hq => hq⟩
  | cons p rest ih =>
    intro S hc
    have hstep : ∀ T : NICState, heapGet T cid = some C →
        (enableDadStep T p.2).endpoints = T.endpoints ∧
        (enableDadStep T p.2).primary = T.primary ∧
        (enableDadStep T p.2).mcastJoins = T.mcastJoins ∧
        (enableDadStep T p.2).nextCell = T.nextCell ∧
        heapGet (enableDadStep T p.2) cid = some C ∧
        ∀ q, (heapGet T q).isSome = true → (heapGet (enableDadStep T p.2) q).isSome = true := by
      intro T hTc
      cases hg : heapGet T p.2 with
      | none => simp [enableDadStep, hg, hTc]
      | some c =>
        by_cases hcond : ((c.kind == networkEndpointKind.permanent ||
            c.kind == networkEndpointKind.permanentTentative) && IsV6UnicastAddress c.addr) = true
        · have hpc : p.2 ≠ cid := by
            intro he
            rw [he, hTc] at hg
            cases hg
            rw [hub] at hcond
            simp at hcond
          have hred : enableDadStep T p.2 =
              { updateCell T p.2 (fun x => { x with kind := networkEndpointKind.permanentTentative }) with
                events := (updateCell T p.2 fun x =>
                  { x with kind := networkEndpointKind.permanentTentative }).events
                    ++ [NICEvent.startDAD c.addr] } := by
            simp [enableDadStep, hg, hcond]
          rw [hred]
          refine ⟨rfl, rfl, rfl, rfl, ?_, ?_⟩
          · show heapGet (updateCell T p.2 fun x =>
              { x with kind := networkEndpointKind.permanentTentative }) cid = some C
            rw [heapGet_updateCell, if_neg (fun he => hpc he.symm)]
            exact hTc
          · intro q hq
            show (heapGet (updateCell T p.2 fun x =>
              { x with kind := networkEndpointKind.permanentTentative }) q).isSome = true
            rw [heapGet_updateCell]
            by_cases hqp : q = p.2
            · rw [if_pos hqp, hqp]
              rw [hqp] at hq
              cases hg' : heapGet T p.2 with
              | none => rw [hg'] at hq; simp at hq
              | some d => simp
            · rw [if_neg hqp]
              exact hq
        · have hcond' : ((c.kind == networkEndpointKind.permanent ||
              c.kind == networkEndpointKind.permanentTentative) &&
              IsV6UnicastAddress c.addr) = false := by
            simpa using hcond
          simp [enableDadStep, hg, hcond', hTc]
    obtain ⟨h1, h2, h3, h4, h5, h6⟩ := hstep S hc
    obtain ⟨g1, g2, g3, g4, g5, g6⟩ := ih (enableDadStep S p.2) h5
    refine ⟨?_, ?_, ?_, ?_, ?_, ?_⟩
    · show (List.foldl _ (enableDadStep S p.2) rest).endpoints = S.endpoints
      rw [g1, h1]
    · show (List.foldl _ (enableDadStep S p.2) rest).primary = S.primary
      rw [g2, h2]
    · show (List.foldl _ (enableDadStep S p.2) rest).mcastJoins = S.mcastJoins
      rw [g3, h3]
    · show (List.foldl _ (enableDadStep S p.2) rest).nextCell = S.nextCell
      rw [g4, h4]
    · exact g5
    · intro q hq
      exact g6 q (h6 q hq)

/-- `joinGroupLocked` for a non-IPv6-unicast group `g` preserves an unrelated
table entry `b ↦ cid`, the cell behind it, and the fact that the cell sits on
no primary list. -/
theorem joinGroup_preserves_other (stk : StackState) (proto : Nat) (g b : Address)
    (cid : Nat) (C : referencedNetworkEndpoint) (S : NICState)
    (hne : b ≠ g)
    (hgu : IsV6UnicastAddress g = false)
    (hlookb : List.lookup b S.endpoints = some cid)
    (hcell : heapGet S cid = some C)
    (hprim : ∀ pr, cid ∉ getPrimary S pr)
    (hwf : ∀ q, List.lookup g S.endpoints = some q →
      (heapGet S q).isSome = true ∧ q ≠ cid) :
    ∃ e S', joinGroupLocked stk proto g S = some (e, S') ∧
      List.lookup b S'.endpoints = some cid ∧ heapGet S' cid = some C ∧
      ∀ pr, cid ∉ getPrimary S' pr := by
  by_cases hj : joinsCount S g = 0
  · cases hpl : List.lookup proto stk.networkProtocols with
    | none =>
      refine ⟨some .unknownProtocol, S, ?_, hlookb, hcell, hprim⟩
      simp [joinGroupLocked, hj, hpl]
    | some info =>
      cases hlg : List.lookup g S.endpoints with
      | none =>
        refine ⟨none, _, joinGroup_fresh stk proto g info S hpl hlg hj hgu, ?_, ?_, ?_⟩
        · show List.lookup b (assocSet S.endpoints g S.nextCell) = some cid
          rw [lookup_assocSet_ne _ _ _ _ hne]
          exact hlookb
        · exact lookup_append_left _ _ _ _ hcell
        · intro pr
          exact hprim pr
      | some rid =>
        obtain ⟨hqsome, hqne⟩ := hwf rid hlg
        obtain ⟨cq, hcq⟩ := Option.isSome_iff_exists.mp hqsome
        have hcidr : ¬(cid = rid) := fun he => hqne he.symm
        cases hkq : cq.kind with
        | permanentTentative =>
          refine ⟨some .duplicateAddress, S, ?_, hlookb, hcell, hprim⟩
          simp [joinGroupLocked, hj, hpl, addAddressLocked, addAddressDupCheck, hlg, hcq, hkq]
        | permanent =>
          refine ⟨some .duplicateAddress, S, ?_, hlookb, hcell, hprim⟩
          simp [joinGroupLocked, hj, hpl, addAddressLocked, addAddressDupCheck, hlg, hcq, hkq]
        | permanentExpired =>
          by_cases hrq : cq.refs = 0
          · by_cases hlq : List.lookup cq.addr S.endpoints = some rid
            · have hab : cq.addr ≠ b := by
                intro he
                rw [he, hlookb] at hlq
                exact hqne (Option.some.inj hlq).symm
              have hrem : removeEndpointLocked rid S = some
                  { S with
                      endpoints := assocDelete S.endpoints cq.addr,
                      primary := assocSet S.primary cq.protocol
                        (removeFirst (getPrimary S cq.protocol) rid),
                      events := S.events ++ [.closeEndpoint rid] } := by
                simp [removeEndpointLocked, hcq, hlq, hkq, setPrimary, getPrimary]
              have hdup : addAddressDupCheck ⟨proto, g, info.defaultPrefixLen⟩
                  .NeverPrimaryEndpoint .permanent .static false S = .continueFresh
                  { S with
                      endpoints := assocDelete S.endpoints cq.addr,
                      primary := assocSet S.primary cq.protocol
                        (removeFirst (getPrimary S cq.protocol) rid),
                      events := S.events ++ [.closeEndpoint rid] } := by
                simp [addAddressDupCheck, hlg, hcq, hkq, hrq, hrem]
              refine ⟨none,
                { S with
                    cells := S.cells ++ [(S.nextCell,
                      { addr := g, prefixLen := info.defaultPrefixLen, protocol := proto,
                        refs := 1, kind := .permanent, configType := .static,
                        deprecated := false })],
                    endpoints := assocSet (assocDelete S.endpoints cq.addr) g S.nextCell,
                    primary := assocSet S.primary cq.protocol
                      (removeFirst (getPrimary S cq.protocol) rid),
                    mcastJoins := assocSet S.mcastJoins g 1,
                    events := S.events ++ [.closeEndpoint rid],
                    nextCell := S.nextCell + 1 }, ?_, ?_, ?_, ?_⟩
              · simp [joinGroupLocked, hj, hpl, addAddressLocked, hdup, hgu,
                  addAddressFreshCore, insertPrimaryEndpointLocked]
              · show List.lookup b (assocSet (assocDelete S.endpoints cq.addr) g S.nextCell) =
                  some cid
                rw [lookup_assocSet_ne _ _ _ _ hne,
                  lookup_assocDelete_ne _ _ _ (Ne.symm hab)]
                exact hlookb
              · exact lookup_append_left _ _ _ _ hcell
              · intro pr
                show cid ∉ (List.lookup pr (assocSet S.primary cq.protocol
                  (removeFirst (getPrimary S cq.protocol) rid))).getD []
                by_cases hpp : pr = cq.protocol
                · rw [hpp, lookup_assocSet_self, Option.getD_some]
                  intro hmem
                  exact hprim cq.protocol (mem_removeFirst hmem)
                · rw [lookup_assocSet_ne _ _ _ _ hpp]
                  exact hprim pr
            · have hrem : removeEndpointLocked rid S = some S := by
                simp [removeEndpointLocked, hcq, hlq]
              have hdup : addAddressDupCheck ⟨proto, g, info.defaultPrefixLen⟩
                  .NeverPrimaryEndpoint .permanent .static false S = .continueFresh S := by
                simp [addAddressDupCheck, hlg, hcq, hkq, hrq, hrem]
              refine ⟨none,
                { S with
                    cells := S.cells ++ [(S.nextCell,
                      { addr := g, prefixLen := info.defaultPrefixLen, protocol := proto,
                        refs := 1, kind := .permanent, configType := .static,
                        deprecated := false })],
                    endpoints := assocSet S.endpoints g S.nextCell,
                    mcastJoins := assocSet S.mcastJoins g 1,
                    nextCell := S.nextCell + 1 }, ?_, ?_, ?_, ?_⟩
              · simp [joinGroupLocked, hj, hpl, addAddressLocked, hdup, hgu,
                  addAddressFreshCore, insertPrimaryEndpointLocked]
              · show List.lookup b (assocSet S.endpoints g S.nextCell) = some cid
                rw [lookup_assocSet_ne _ _ _ _ hne]
                exact hlookb
              · exact lookup_append_left _ _ _ _ hcell
              · intro pr
                exact hprim pr
          · have hgp : getPrimary (updateCell (incRefCell S rid) rid fun x =>
                { x with kind := networkEndpointKind.permanent, deprecated := false, configType := networkEndpointConfigType.static }) cq.protocol =
                getPrimary S cq.protocol := rfl
            cases hidx : List.findIdx? (· = rid) (getPrimary S cq.protocol) with
            | none =>
              have hdup : addAddressDupCheck ⟨proto, g, info.defaultPrefixLen⟩
                  .NeverPrimaryEndpoint .permanent .static false S =
                  .done (.ok rid) (updateCell (incRefCell S rid) rid fun x =>
                    { x with kind := networkEndpointKind.permanent, deprecated := false, configType := networkEndpointConfigType.static }) := by
                simp [addAddressDupCheck, hlg, hcq, hkq, hrq, hgp, hidx,
                  insertPrimaryEndpointLocked]
              refine ⟨none,
                { updateCell (incRefCell S rid) rid (fun x =>
                    { x with kind := networkEndpointKind.permanent, deprecated := false, configType := networkEndpointConfigType.static }) with
                  mcastJoins := assocSet S.mcastJoins g 1 }, ?_, ?_, ?_, ?_⟩
              · simp [joinGroupLocked, hj, hpl, addAddressLocked, hdup,
                  updateCell_mcastJoins, incRefCell_mcastJoins]
              · exact hlookb
              · show heapGet (updateCell (incRefCell S rid) rid fun x =>
                    { x with kind := networkEndpointKind.permanent, deprecated := false, configType := networkEndpointConfigType.static }) cid = some C
                rw [heapGet_updateCell, if_neg hcidr, heapGet_incRefCell, if_neg hcidr]
                exact hcell
              · intro pr
                exact hprim pr
            | some i =>
              have hdup : addAddressDupCheck ⟨proto, g, info.defaultPrefixLen⟩
                  .NeverPrimaryEndpoint .permanent .static false S =
                  .done (.ok rid)
                    { updateCell (incRefCell S rid) rid (fun x =>
                        { x with kind := networkEndpointKind.permanent, deprecated := false, configType := networkEndpointConfigType.static }) with
                      primary := assocSet S.primary cq.protocol
                        ((getPrimary S cq.protocol).eraseIdx i) } := by
                simp [addAddressDupCheck, hlg, hcq, hkq, hrq, hgp, hidx, setPrimary,
                  updateCell_primary, incRefCell_primary]
              refine ⟨none,
                { updateCell (incRefCell S rid) rid (fun x =>
                    { x with kind := networkEndpointKind.permanent, deprecated := false, configType := networkEndpointConfigType.static }) with
                  primary := assocSet S.primary cq.protocol
                    ((getPrimary S cq.protocol).eraseIdx i),
                  mcastJoins := assocSet S.mcastJoins g 1 }, ?_, ?_, ?_, ?_⟩
              · simp [joinGroupLocked, hj, hpl, addAddressLocked, hdup,
                  updateCell_mcastJoins, incRefCell_mcastJoins]
              · exact hlookb
              · show heapGet (updateCell (incRefCell S rid) rid fun x =>
                    { x with kind := networkEndpointKind.permanent, deprecated := false, configType := networkEndpointConfigType.static }) cid = some C
                rw [heapGet_updateCell, if_neg hcidr, heapGet_incRefCell, if_neg hcidr]
                exact hcell
              · intro pr
                show cid ∉ (List.lookup pr (assocSet S.primary cq.protocol
                  ((getPrimary S cq.protocol).eraseIdx i))).getD []
                by_cases hpp : pr = cq.protocol
                · rw [hpp, lookup_assocSet_self, Option.getD_some,
                    eraseIdx_eq_removeFirst _ _ i hidx]
                  intro hmem
                  exact hprim cq.protocol (mem_removeFirst hmem)
                · rw [lookup_assocSet_ne _ _ _ _ hpp]
                  exact hprim pr
        | temporary =>
          by_cases hrq : cq.refs = 0
          · by_cases hlq : List.lookup cq.addr S.endpoints = some rid
            · have hab : cq.addr ≠ b := by
                intro he
                rw [he, hlookb] at hlq
                exact hqne (Option.some.inj hlq).symm
              have hrem : removeEndpointLocked rid S = some
                  { S with
                      endpoints := assocDelete S.endpoints cq.addr,
                      primary := assocSet S.primary cq.protocol
                        (removeFirst (getPrimary S cq.protocol) rid),
                      events := S.events ++ [.closeEndpoint rid] } := by
                simp [removeEndpointLocked, hcq, hlq, hkq, setPrimary, getPrimary]
              have hdup : addAddressDupCheck ⟨proto, g, info.defaultPrefixLen⟩
                  .NeverPrimaryEndpoint .permanent .static false S = .continueFresh
                  { S with
                      endpoints := assocDelete S.endpoints cq.addr,
                      primary := assocSet S.primary cq.protocol
                        (removeFirst (getPrimary S cq.protocol) rid),
                      events := S.events ++ [.closeEndpoint rid] } := by
                simp [addAddressDupCheck, hlg, hcq, hkq, hrq, hrem]
              refine ⟨none,
                { S with
                    cells := S.cells ++ [(S.nextCell,
                      { addr := g, prefixLen := info.defaultPrefixLen, protocol := proto,
                        refs := 1, kind := .permanent, configType := .static,
                        deprecated := false })],
                    endpoints := assocSet (assocDelete S.endpoints cq.addr) g S.nextCell,
                    primary := assocSet S.primary cq.protocol
                      (removeFirst (getPrimary S cq.protocol) rid),
                    mcastJoins := assocSet S.mcastJoins g 1,
                    events := S.events ++ [.closeEndpoint rid],
                    nextCell := S.nextCell + 1 }, ?_, ?_, ?_, ?_⟩
              · simp [joinGroupLocked, hj, hpl, addAddressLocked, hdup, hgu,
                  addAddressFreshCore, insertPrimaryEndpointLocked]
              · show List.lookup b (assocSet (assocDelete S.endpoints cq.addr) g S.nextCell) =
                  some cid
                rw [lookup_assocSet_ne _ _ _ _ hne,
                  lookup_assocDelete_ne _ _ _ (Ne.symm hab)]
                exact hlookb
              · exact lookup_append_left _ _ _ _ hcell
              · intro pr
                show cid ∉ (List.lookup pr (assocSet S.primary cq.protocol
                  (removeFirst (getPrimary S cq.protocol) rid))).getD []
                by_cases hpp : pr = cq.protocol
                · rw [hpp, lookup_assocSet_self, Option.getD_some]
                  intro hmem
                  exact hprim cq.protocol (mem_removeFirst hmem)
                · rw [lookup_assocSet_ne _ _ _ _ hpp]
                  exact hprim pr
            · have hrem : removeEndpointLocked rid S = some S := by
                simp [removeEndpointLocked, hcq, hlq]
              have hdup : addAddressDupCheck ⟨proto, g, info.defaultPrefixLen⟩
                  .NeverPrimaryEndpoint .permanent .static false S = .continueFresh S := by
                simp [addAddressDupCheck, hlg, hcq, hkq, hrq, hrem]
              refine ⟨none,
                { S with
                    cells := S.cells ++ [(S.nextCell,
                      { addr := g, prefixLen := info.defaultPrefixLen, protocol := proto,
                        refs := 1, kind := .permanent, configType := .static,
                        deprecated := false })],
                    endpoints := assocSet S.endpoints g S.nextCell,
                    mcastJoins := assocSet S.mcastJoins g 1,
                    nextCell := S.nextCell + 1 }, ?_, ?_, ?_, ?_⟩
              · simp [joinGroupLocked, hj, hpl, addAddressLocked, hdup, hgu,
                  addAddressFreshCore, insertPrimaryEndpointLocked]
              · show List.lookup b (assocSet S.endpoints g S.nextCell) = some cid
                rw [lookup_assocSet_ne _ _ _ _ hne]
                exact hlookb
              · exact lookup_append_left _ _ _ _ hcell
              · intro pr
                exact hprim pr
          · have hgp : getPrimary (updateCell (incRefCell S rid) rid fun x =>
                { x with kind := networkEndpointKind.permanent, deprecated := false, configType := networkEndpointConfigType.static }) cq.protocol =
                getPrimary S cq.protocol := rfl
            cases hidx : List.findIdx? (· = rid) (getPrimary S cq.protocol) with
            | none =>
              have hdup : addAddressDupCheck ⟨proto, g, info.defaultPrefixLen⟩
                  .NeverPrimaryEndpoint .permanent .static false S =
                  .done (.ok rid) (updateCell (incRefCell S rid) rid fun x =>
                    { x with kind := networkEndpointKind.permanent, deprecated := false, configType := networkEndpointConfigType.static }) := by
                simp [addAddressDupCheck, hlg, hcq, hkq, hrq, hgp, hidx,
                  insertPrimaryEndpointLocked]
              refine ⟨none,
                { updateCell (incRefCell S rid) rid (fun x =>
                    { x with kind := networkEndpointKind.permanent, deprecated := false, configType := networkEndpointConfigType.static }) with
                  mcastJoins := assocSet S.mcastJoins g 1 }, ?_, ?_, ?_, ?_⟩
              · simp [joinGroupLocked, hj, hpl, addAddressLocked, hdup,
                  updateCell_mcastJoins, incRefCell_mcastJoins]
              · exact hlookb
              · show heapGet (updateCell (incRefCell S rid) rid fun x =>
                    { x with kind := networkEndpointKind.permanent, deprecated := false, configType := networkEndpointConfigType.static }) cid = some C
                rw [heapGet_updateCell, if_neg hcidr, heapGet_incRefCell, if_neg hcidr]
                exact hcell
              · intro pr
                exact hprim pr
            | some i =>
              have hdup : addAddressDupCheck ⟨proto, g, info.defaultPrefixLen⟩
                  .NeverPrimaryEndpoint .permanent .static false S =
                  .done (.ok rid)
                    { updateCell (incRefCell S rid) rid (fun x =>
                        { x with kind := networkEndpointKind.permanent, deprecated := false, configType := networkEndpointConfigType.static }) with
                      primary := assocSet S.primary cq.protocol
                        ((getPrimary S cq.protocol).eraseIdx i) } := by
                simp [addAddressDupCheck, hlg, hcq, hkq, hrq, hgp, hidx, setPrimary,
                  updateCell_primary, incRefCell_primary]
              refine ⟨none,
                { updateCell (incRefCell S rid) rid (fun x =>
                    { x with kind := networkEndpointKind.permanent, deprecated := false, configType := networkEndpointConfigType.static }) with
                  primary := assocSet S.primary cq.protocol
                    ((getPrimary S cq.protocol).eraseIdx i),
                  mcastJoins := assocSet S.mcastJoins g 1 }, ?_, ?_, ?_, ?_⟩
              · simp [joinGroupLocked, hj, hpl, addAddressLocked, hdup,
                  updateCell_mcastJoins, incRefCell_mcastJoins]
              · exact hlookb
              · show heapGet (updateCell (incRefCell S rid) rid fun x =>
                    { x with kind := networkEndpointKind.permanent, deprecated := false, configType := networkEndpointConfigType.static }) cid = some C
                rw [heapGet_updateCell, if_neg hcidr, heapGet_incRefCell, if_neg hcidr]
                exact hcell
              · intro pr
                show cid ∉ (List.lookup pr (assocSet S.primary cq.protocol
                  ((getPrimary S cq.protocol).eraseIdx i))).getD []
                by_cases hpp : pr = cq.protocol
                · rw [hpp, lookup_assocSet_self, Option.getD_some,
                    eraseIdx_eq_removeFirst _ _ i hidx]
                  intro hmem
                  exact hprim cq.protocol (mem_removeFirst hmem)
                · rw [lookup_assocSet_ne _ _ _ _ hpp]
                  exact hprim pr
  · refine ⟨none, { S with mcastJoins := assocSet S.mcastJoins g (joinsCount S g + 1) },
      ?_, hlookb, hcell, hprim⟩
    simp [joinGroupLocked, hj]

theorem ite_events_endpoints (c : Bool) (S : NICState) (ev : List NICEvent) :
    (if c then { S with events := ev } else S).endpoints = S.endpoints := by
  cases c <;> rfl

theorem ite_events_cells (c : Bool) (S : NICState) (ev : List NICEvent) :
    (if c then { S with events := ev } else S).cells = S.cells := by
  cases c <;> rfl

theorem ite_events_primary (c : Bool) (S : NICState) (ev : List NICEvent) :
    (if c then { S with events := ev } else S).primary = S.primary := by
  cases c <;> rfl

/-- The IPv6 half of `enable` (DAD walk, ff02::1 join, SLAAC and router
solicitation) preserves an unrelated table entry `b ↦ cid` whose cell address
is not IPv6 unicast, the cell behind it, and its absence from every primary
list. -/
theorem enableIPv6Part_preserves (stk : StackState) (b : Address) (cid : Nat)
    (C : referencedNetworkEndpoint) (N : NICState)
    (hub : IsV6UnicastAddress C.addr = false)
    (hne : b ≠ IPv6AllNodesMulticastAddress)
    (hlook : List.lookup b N.endpoints = some cid)
    (hcell : heapGet N cid = some C)
    (hprim : ∀ pr, cid ∉ getPrimary N pr)
    (hwfq : ∀ q, List.lookup IPv6AllNodesMulticastAddress N.endpoints = some q →
      (heapGet N q).isSome = true ∧ q ≠ cid) :
    ∃ e N', enableIPv6Part stk N = some (e, N') ∧
      List.lookup b N'.endpoints = some cid ∧ heapGet N' cid = some C ∧
      ∀ pr, cid ∉ getPrimary N' pr := by
  cases h6 : List.lookup IPv6ProtocolNumber stk.networkProtocols with
  | none =>
    refine ⟨none, N, ?_, hlook, hcell, hprim⟩
    simp [enableIPv6Part, h6]
  | some i6 =>
    obtain ⟨hFend, hFprim, hFmc, hFnext, hFcell, hFsome⟩ :=
      dadFold_pres cid C hub N.endpoints N hcell
    obtain ⟨e2, S', hjoin, hb', hcell', hprim'⟩ :=
      joinGroup_preserves_other stk IPv6ProtocolNumber IPv6AllNodesMulticastAddress b cid C
        (List.foldl (fun acc p => enableDadStep acc p.2) N N.endpoints)
        hne (by decide)
        (by rw [hFend]; exact hlook)
        hFcell
        (by intro pr
            show cid ∉ (List.lookup pr
              (List.foldl (fun acc p => enableDadStep acc p.2) N N.endpoints).primary).getD []
            rw [hFprim]
            exact hprim pr)
        (by intro q hq
            rw [hFend] at hq
            obtain ⟨hs, hne'⟩ := hwfq q hq
            exact ⟨hFsome q hs, hne'⟩)
    have hstep : enableIPv6Part stk N =
        match joinGroupLocked stk IPv6ProtocolNumber IPv6AllNodesMulticastAddress
            (List.foldl (fun acc p => enableDadStep acc p.2) N N.endpoints) with
        | none => none
        | some (some e, n2) => some (some e, n2)
        | some (none, n2) =>
          let n3 := if stk.autoGenIPv6LinkLocal && !n2.loopback then
              { n2 with events := n2.events ++ [NICEvent.doSLAAC] } else n2
          let n4 := if !stk.forwarding then
              { n3 with events := n3.events ++ [NICEvent.startSolicitingRouters] } else n3
          some (none, n4) := by
      simp only [enableIPv6Part, h6]
    rw [hstep, hjoin]
    cases e2 with
    | some err =>
      exact ⟨some err, S', rfl, hb', hcell', hprim'⟩
    | none =>
      refine ⟨none, _, rfl, ?_, ?_, ?_⟩
      · show List.lookup b
          (if (!stk.forwarding) then
            { (if (stk.autoGenIPv6LinkLocal && !S'.loopback) then
                { S' with events := S'.events ++ [NICEvent.doSLAAC] } else S') with
              events := (if (stk.autoGenIPv6LinkLocal && !S'.loopback) then
                { S' with events := S'.events ++ [NICEvent.doSLAAC] } else S').events
                  ++ [NICEvent.startSolicitingRouters] }
          else (if (stk.autoGenIPv6LinkLocal && !S'.loopback) then
            { S' with events := S'.events ++ [NICEvent.doSLAAC] } else S')).endpoints =
          some cid
        rw [ite_events_endpoints, ite_events_endpoints]
        exact hb'
      · show List.lookup cid
          (if (!stk.forwarding) then
            { (if (stk.autoGenIPv6LinkLocal && !S'.loopback) then
                { S' with events := S'.events ++ [NICEvent.doSLAAC] } else S') with
              events := (if (stk.autoGenIPv6LinkLocal && !S'.loopback) then
                { S' with events := S'.events ++ [NICEvent.doSLAAC] } else S').events
                  ++ [NICEvent.startSolicitingRouters] }
          else (if (stk.autoGenIPv6LinkLocal && !S'.loopback) then
            { S' with events := S'.events ++ [NICEvent.doSLAAC] } else S')).cells =
          some C
        rw [ite_events_cells, ite_events_cells]
        exact hcell'
      · intro pr
        show cid ∉ (List.lookup pr
          (if (!stk.forwarding) then
            { (if (stk.autoGenIPv6LinkLocal && !S'.loopback) then
                { S' with events := S'.events ++ [NICEvent.doSLAAC] } else S') with
              events := (if (stk.autoGenIPv6LinkLocal && !S'.loopback) then
                { S' with events := S'.events ++ [NICEvent.doSLAAC] } else S').events
                  ++ [NICEvent.startSolicitingRouters] }
          else (if (stk.autoGenIPv6LinkLocal && !S'.loopback) then
            { S' with events := S'.events ++ [NICEvent.doSLAAC] } else S')).primary).getD []
        rw [ite_events_primary, ite_events_primary]
        exact hprim' pr

/-- C1 counterexample: enabling a fresh NIC on a stack with IPv4 registered
installs the 255.255.255.255 entry with prefix length 32 bits
(`8 * header.IPv4AddressSize`, a /32), not 8 (a /8) as the claim states. -/
theorem claim_C1_counterexample :
    ((enable stk0 emptyNIC).map (fun p =>
      ((List.lookup IPv4Broadcast p.2.endpoints).bind (heapGet p.2)).map
        referencedNetworkEndpoint.prefixLen) = some (some 32)) ∧ (32 : Nat) ≠ 8 := by
  constructor
  · rfl
  · decide

/-- C1 (amended): enabling a disabled NIC whose stack has IPv4 registered
installs the IPv4 limited broadcast address 255.255.255.255 as a permanent,
static entry with prefix length `8 * IPv4AddressSize` = 32 bits (a /32), and
the NeverPrimaryEndpoint behavior leaves the new cell on no primary list. -/
theorem claim_C1_amended (stk : StackState) (n : NICState)
    (hen : n.enabled = false)
    (h4 : (List.lookup IPv4ProtocolNumber stk.networkProtocols).isSome = true)
    (hb : List.lookup IPv4Broadcast n.endpoints = none)
    (hwf1 : ∀ p ∈ n.endpoints, (heapGet n p.2).isSome = true)
    (hwf2 : ∀ p ∈ n.endpoints, p.2 < n.nextCell)
    (hwf3 : ∀ pr, n.nextCell ∉ getPrimary n pr)
    (hwf4 : ∀ pc ∈ n.cells, pc.1 < n.nextCell) :
    ∃ e n', enable stk n = some (e, n') ∧
      List.lookup IPv4Broadcast n'.endpoints = some n.nextCell ∧
      heapGet n' n.nextCell = some
        { addr := IPv4Broadcast, prefixLen := 8 * IPv4AddressSize,
          protocol := IPv4ProtocolNumber, refs := 1,
          kind := networkEndpointKind.permanent,
          configType := networkEndpointConfigType.static, deprecated := false } ∧
      8 * IPv4AddressSize = 32 ∧
      ∀ pr, n.nextCell ∉ getPrimary n' pr := by
  obtain ⟨i4, hreg4⟩ := Option.isSome_iff_exists.mp h4
  have hu4 : IsV6UnicastAddress IPv4Broadcast = false := by decide
  have hpne : (IPv4ProtocolNumber == IPv6ProtocolNumber) = false := by decide
  have haddb : addAddressLocked stk ⟨IPv4ProtocolNumber, IPv4Broadcast, 8 * IPv4AddressSize⟩
      PrimaryEndpointBehavior.NeverPrimaryEndpoint networkEndpointKind.permanent
      networkEndpointConfigType.static false
      { n with enabled := true, events := n.events ++ [NICEvent.attachLink] } =
      some (Except.ok n.nextCell,
        { n with
          enabled := true, events := n.events ++ [NICEvent.attachLink],
          cells := n.cells ++ [(n.nextCell,
            { addr := IPv4Broadcast, prefixLen := 8 * IPv4AddressSize,
              protocol := IPv4ProtocolNumber, refs := 1,
              kind := networkEndpointKind.permanent,
              configType := networkEndpointConfigType.static, deprecated := false })],
          endpoints := assocSet n.endpoints IPv4Broadcast n.nextCell,
          nextCell := n.nextCell + 1 }) := by
    simp [addAddressLocked, addAddressDupCheck, hb, hreg4, addAddressFreshCore,
      insertPrimaryEndpointLocked, hu4, hpne]
  have henable : enable stk n = enableIPv6Part stk
      { n with
        enabled := true, events := n.events ++ [NICEvent.attachLink],
        cells := n.cells ++ [(n.nextCell,
          { addr := IPv4Broadcast, prefixLen := 8 * IPv4AddressSize,
            protocol := IPv4ProtocolNumber, refs := 1,
            kind := networkEndpointKind.permanent,
            configType := networkEndpointConfigType.static, deprecated := false })],
        endpoints := assocSet n.endpoints IPv4Broadcast n.nextCell,
        nextCell := n.nextCell + 1 } := by
    simp [enable, hen, hreg4, haddb]
  have hlookN2 : List.lookup IPv4Broadcast
      (assocSet n.endpoints IPv4Broadcast n.nextCell) = some n.nextCell :=
    lookup_assocSet_self _ _ _
  have hnone : List.lookup n.nextCell n.cells = none :=
    lookup_none_of_forall_ne _ _ (fun p hp => Nat.ne_of_lt (hwf4 p hp))
  have hcellN2 : List.lookup n.nextCell (n.cells ++ [(n.nextCell,
      ({ addr := IPv4Broadcast, prefixLen := 8 * IPv4AddressSize,
         protocol := IPv4ProtocolNumber, refs := 1,
         kind := networkEndpointKind.permanent,
         configType := networkEndpointConfigType.static,
         deprecated := false } : referencedNetworkEndpoint))]) = some
      { addr := IPv4Broadcast, prefixLen := 8 * IPv4AddressSize,
        protocol := IPv4ProtocolNumber, refs := 1,
        kind := networkEndpointKind.permanent,
        configType := networkEndpointConfigType.static, deprecated := false } := by
    rw [lookup_append_right _ _ _ hnone]
    simp [List.lookup]
  obtain ⟨e, N', hrun, hl, hc, hp⟩ := enableIPv6Part_preserves stk IPv4Broadcast n.nextCell
    { addr := IPv4Broadcast, prefixLen := 8 * IPv4AddressSize,
      protocol := IPv4ProtocolNumber, refs := 1,
      kind := networkEndpointKind.permanent,
      configType := networkEndpointConfigType.static, deprecated := false }
    { n with
      enabled := true, events := n.events ++ [NICEvent.attachLink],
      cells := n.cells ++ [(n.nextCell,
        { addr := IPv4Broadcast, prefixLen := 8 * IPv4AddressSize,
          protocol := IPv4ProtocolNumber, refs := 1,
          kind := networkEndpointKind.permanent,
          configType := networkEndpointConfigType.static, deprecated := false })],
      endpoints := assocSet n.endpoints IPv4Broadcast n.nextCell,
      nextCell := n.nextCell + 1 }
    (by decide) (by decide) hlookN2 hcellN2
    (by intro pr
        show n.nextCell ∉ (List.lookup pr n.primary).getD []
        exact hwf3 pr)
    (by intro q hq
        have hq2 : List.lookup IPv6AllNodesMulticastAddress
            (assocSet n.endpoints IPv4Broadcast n.nextCell) = some q := hq
        rw [lookup_assocSet_ne _ _ _ _
          (by decide : IPv6AllNodesMulticastAddress ≠ IPv4Broadcast)] at hq2
        have hmem := mem_of_lookup hq2
        constructor
        · obtain ⟨cqq, hcqq⟩ := Option.isSome_iff_exists.mp (hwf1 _ hmem)
          have : List.lookup q (n.cells ++ [(n.nextCell,
              ({ addr := IPv4Broadcast, prefixLen := 8 * IPv4AddressSize,
                 protocol := IPv4ProtocolNumber, refs := 1,
                 kind := networkEndpointKind.permanent,
                 configType := networkEndpointConfigType.static,
                 deprecated := false } : referencedNetworkEndpoint))]) = some cqq :=
            lookup_append_left _ _ _ _ hcqq
          show (List.lookup q (n.cells ++ _)).isSome = true
          rw [this]
          rfl
        · exact Nat.ne_of_lt (hwf2 _ hmem))
  exact ⟨e, N', henable.trans hrun, hl, hc, by decide, hp⟩

/-- Witness for the amended C1 at the concrete empty NIC and two-protocol
stack: the broadcast entry lands in cell 0 with prefix length 32. -/
theorem claim_C1_amended_witness :
    ∃ e n', enable stk0 emptyNIC = some (e, n') ∧
      List.lookup IPv4Broadcast n'.endpoints = some emptyNIC.nextCell ∧
      heapGet n' emptyNIC.nextCell = some
        { addr := IPv4Broadcast, prefixLen := 8 * IPv4AddressSize,
          protocol := IPv4ProtocolNumber, refs := 1,
          kind := networkEndpointKind.permanent,
          configType := networkEndpointConfigType.static, deprecated := false } ∧
      8 * IPv4AddressSize = 32 ∧
      ∀ pr, emptyNIC.nextCell ∉ getPrimary n' pr :=
  claim_C1_amended stk0 emptyNIC rfl rfl rfl
    (by intro p hp; simp [emptyNIC] at hp)
    (by intro p hp; simp [emptyNIC] at hp)
    (by intro pr; simp [getPrimary, emptyNIC])
    (by intro pc hp; simp [emptyNIC] at hp)

end NicModel
